import Mathlib

/-!
EMV contactless read (emv.arduino): embedding of `src/main.cpp`.

Bytes are natural numbers below 256; `uint8_t` arithmetic that can wrap is
written with an explicit `% 256`.  Buffers are lists of bytes.  The classes
`ReadBuffer`, `WriteBuffer`, `TLVNode` and `TLVS` come from `tlv.h`, which is
not part of the sources read here; they are modelled from the specification
and from the way `main.cpp` uses them.
-/

namespace Emv

/-! ## Buffers and TLV nodes (collaborators declared in `tlv.h`) -/

/-- Modelled from the spec: the read cursor `ReadBuffer` of `tlv.h` (missing
from the sources): a byte buffer with a read position. `buffer_size` is the
length of `buffer`. -/
structure ReadBuffer where
  buffer : List Nat
  pos : Nat
deriving DecidableEq, Repr

/-- Modelled from the spec: `ReadBuffer::atEnd()`, true when every byte has
been consumed. -/
def ReadBuffer.atEnd (rb : ReadBuffer) : Bool :=
  decide (rb.buffer.length ≤ rb.pos)

/-- Modelled from the spec: `ReadBuffer::getByte(uint8_t&)`: yields the byte
under the cursor and advances, or fails (`none`) at the end of the buffer,
leaving the cursor where it is. -/
def ReadBuffer.getByte (rb : ReadBuffer) : Option Nat × ReadBuffer :=
  match rb.buffer[rb.pos]? with
  | some b => (some b, { rb with pos := rb.pos + 1 })
  | none => (none, rb)

/-- Modelled from the spec: the output cursor `WriteBuffer` of `tlv.h`
(missing from the sources) over an array of `buffer_size` bytes. `data` holds
the bytes written so far, so the write position `pos` is its length. -/
structure WriteBuffer where
  buffer_size : Nat
  data : List Nat
deriving DecidableEq, Repr

/-- The write position `pos` of a `WriteBuffer`. -/
def WriteBuffer.pos (wb : WriteBuffer) : Nat := wb.data.length

/-- Modelled from the spec: `WriteBuffer::putByte`: stores one byte while the
array has room; a byte that does not fit is not stored. -/
def WriteBuffer.putByte (wb : WriteBuffer) (b : Nat) : WriteBuffer :=
  if wb.pos < wb.buffer_size then { wb with data := wb.data ++ [b] } else wb

/-- Modelled from the spec: `WriteBuffer::putBytes(src, count)`: stores the
first `count` bytes of `src` one after the other. -/
def WriteBuffer.putBytes (wb : WriteBuffer) (src : List Nat) (count : Nat) : WriteBuffer :=
  (src.take count).foldl WriteBuffer.putByte wb

/-- Modelled from the spec: a decoded BER-TLV node of `tlv.h` (missing from
the sources): tag, value bytes and, for a constructed node, its children. -/
inductive TLVNode where
  | mk (tag : Nat) (value : List Nat) (children : List TLVNode)

/-- Tag of a node: `TLVNode::getTag()`. -/
def TLVNode.getTag : TLVNode → Nat
  | .mk t _ _ => t

/-- Value bytes of a node: `TLVNode::getValue()`. -/
def TLVNode.getValue : TLVNode → List Nat
  | .mk _ v _ => v

/-- Length of the value of a node: `TLVNode::getValueLength()`. -/
def TLVNode.getValueLength (n : TLVNode) : Nat := n.getValue.length

/-- Children of a node, in the order they were decoded. -/
def TLVNode.children : TLVNode → List TLVNode
  | .mk _ _ c => c

/-- Modelled from the spec: `TLVNode::findChild(tag)`, the first child of the
node that carries the tag, `none` for `NULL`. -/
def TLVNode.findChild (n : TLVNode) (tag : Nat) : Option TLVNode :=
  n.children.find? (fun c => c.getTag == tag)

/-- Modelled from the spec: `TLVNode::parseTag(ReadBuffer&, int*)`: reads a
tag identifier of one or two bytes (a first byte whose low five bits are all
set announces a second byte); the error flag is raised when the buffer ends
inside the identifier. Result: tag, error flag, advanced cursor. -/
def parseTag (rb : ReadBuffer) : Nat × Bool × ReadBuffer :=
  match rb.getByte with
  | (none, rb1) => (0, true, rb1)
  | (some b0, rb1) =>
    if b0 % 32 = 31 then
      match rb1.getByte with
      | (none, rb2) => (0, true, rb2)
      | (some b1, rb2) => (b0 * 256 + b1, false, rb2)
    else (b0, false, rb1)

/-! ## Terminal data dictionary (`main.cpp`, lines 37-436) -/

/-- Element of the data table for PDOL default values (`struct DataOption`). -/
structure DataOption where
  tag : Nat
  value : List Nat
  value_length : Nat
deriving DecidableEq, Repr

def dolTagTTQ : Nat := 0x9f66
def dolValTTQ : List Nat := [0x36, 0x80, 0x40, 0x00]
def dolTagTCC : Nat := 0x5f2a
def dolValTCC : List Nat := [0x08, 0x40]
def dolTagTRMD : Nat := 0x9f1d
def dolValTRMD : List Nat := [0x40, 0x40, 0x80, 0x00, 0x00, 0x00, 0x00, 0x00]
def dolTagTCnC : Nat := 0x9f1a
def dolValTCnC : List Nat := [0x08, 0x40]
def dolTagTT : Nat := 0x9f35
def dolValTT : List Nat := [0x14]
def dolTagAI : Nat := 0x9f01
def dolValAI : List Nat := [0x01]
def dolTagALCD : Nat := 0x9f7e
def dolValALCD : List Nat := [0x01]
def dolTagMNL : Nat := 0x9f4e
def dolValMNL : List Nat :=
  [0x41, 0x42, 0x43, 0x32, 0x30, 0x32, 0x34, 0x30, 0x38, 0x00, 0x00,
   0x00, 0x00, 0x00, 0x00, 0x00, 0x00, 0x00, 0x00, 0x00, 0x00, 0x00,
   0x00, 0x00, 0x00, 0x00, 0x00, 0x00, 0x00, 0x00, 0x00, 0x00]

/-- The data option lookup table `data_options_list[]`: eight entries. -/
def data_options_list : List DataOption :=
  [ ⟨dolTagTTQ, dolValTTQ, dolValTTQ.length⟩,
    ⟨dolTagTCC, dolValTCC, dolValTCC.length⟩,
    ⟨dolTagTRMD, dolValTRMD, dolValTRMD.length⟩,
    ⟨dolTagTCnC, dolValTCnC, dolValTCnC.length⟩,
    ⟨dolTagTT, dolValTT, dolValTT.length⟩,
    ⟨dolTagAI, dolValAI, dolValAI.length⟩,
    ⟨dolTagALCD, dolValALCD, dolValALCD.length⟩,
    ⟨dolTagMNL, dolValMNL, dolValMNL.length⟩ ]

/-- Size in bytes of one `DataOption` on the 32-bit target the sketch is
written for (`uint16_t` at offset 0, pointer at 4, `uint8_t` at 8). -/
def sizeofDataOption : Nat := 12

/-- The value of `sizeof(data_options_list)`: the size of the array in bytes,
which is what bounds the loop of `getDataOption`. -/
def sizeof_data_options_list : Nat := data_options_list.length * sizeofDataOption

/-- Result of `getDataOption`: a pointer to an entry, `NULL`, or an access to
`data_options_list[index]` with `index` past the last entry of the array
(undefined behaviour in the source). -/
inductive Lookup where
  | found (option : DataOption)
  | null
  | overrun (index : Nat)
deriving DecidableEq, Repr

/-- The loop `for (int i = ...; i < sizeof(data_options_list); i++)` of
`getDataOption`, from index `i` with `n` iterations left. -/
def getDataOptionLoop (tag : Nat) : Nat → Nat → Lookup
  | _, 0 => .null
  | i, n + 1 =>
    match data_options_list[i]? with
    | none => .overrun i
    | some e => if e.tag = tag then .found e else getDataOptionLoop tag (i + 1) n

/-- Search the table for a matching tag: `getDataOption` (lines 428-436). -/
def getDataOption (tag : Nat) : Lookup :=
  getDataOptionLoop tag 0 sizeof_data_options_list

/-! ## DOL resolution: `buildDataOptionsList` (lines 442-494) -/

/-- Result of a run of `buildDataOptionsList`: it returned `ok` and left the
output buffer as `data_options`; or the table search read past the array; or
the loop was still running when the iteration budget ended. -/
inductive BuildResult where
  | returned (ok : Bool) (data_options : WriteBuffer)
  | overrun (index : Nat)
  | unfinished
deriving DecidableEq, Repr

/-- The loop `while (len-- > 0) data_options.putByte(0);`. -/
def padZeros : Nat → WriteBuffer → WriteBuffer
  | 0, wb => wb
  | n + 1, wb => padZeros n (wb.putByte 0)

/-- The `while (!dol_list.atEnd())` loop of `buildDataOptionsList`, with an
iteration budget. -/
def buildLoop : Nat → ReadBuffer → WriteBuffer → BuildResult
  | 0, _, _ => .unfinished
  | fuel + 1, dol_list, data_options =>
    if dol_list.atEnd then .returned true data_options
    else
      match parseTag dol_list with
      | (tag, error_flag, dol1) =>
        if error_flag then .returned false data_options
        else
          match dol1.getByte with
          | (none, _) => .returned false data_options
          | (some len, dol2) =>
            match getDataOption tag with
            | .overrun i => .overrun i
            | .null => buildLoop fuel dol2 (padZeros len data_options)
            | .found option =>
              let copy_len := min option.value_length len
              let out := data_options.putBytes option.value copy_len
              if option.value_length ≠ len then
                if copy_len < len then
                  buildLoop fuel dol2 (padZeros ((len + 256 - option.value_length) % 256) out)
                else buildLoop fuel dol2 out
              else buildLoop fuel dol2 out

/-- Build the processing data options: `buildDataOptionsList(pdol_node,
data_options)`. A `NULL` node leaves `dol_list` empty. Every iteration that
goes on consumes at least two request bytes, so a budget of one more than the
request length is never used up. -/
def buildDataOptionsList (pdol_node : Option TLVNode) (data_options : WriteBuffer) : BuildResult :=
  match pdol_node with
  | none => buildLoop 1 ⟨[], 0⟩ data_options
  | some node => buildLoop (node.getValueLength + 1) ⟨node.getValue, 0⟩ data_options

/-- A PDOL node (tag 9F38) with the given value bytes. -/
def pdolNode (value : List Nat) : TLVNode := .mk 0x9f38 value []

/-- The bytes of a DOL request made of complete pairs with two-byte tags:
each pair is the tag (high byte, low byte) followed by the requested length. -/
def encodeDol : List (Nat × Nat) → List Nat
  | [] => []
  | (tag, len) :: ps => tag / 256 :: tag % 256 :: len :: encodeDol ps

/-- The tags of the terminal data dictionary. -/
def dictionaryTags : List Nat := data_options_list.map DataOption.tag

/-- The stored value of a dictionary tag (empty for other tags). -/
def storedValue (tag : Nat) : List Nat :=
  match data_options_list.find? (fun e => e.tag == tag) with
  | some e => e.value
  | none => []

/-- Sum of the requested lengths of a request. -/
def requestedTotal : List (Nat × Nat) → Nat
  | [] => 0
  | (_, len) :: ps => len + requestedTotal ps

/-- The bytes the specification asks for one pair: the stored value cut to
the requested length, then zero bytes up to the requested length. -/
def contribution (tag len : Nat) : List Nat :=
  (storedValue tag).take len ++ List.replicate (len - (storedValue tag).length) 0

/-- The concatenation of the contributions of the pairs of a request. -/
def resolved : List (Nat × Nat) → List Nat
  | [] => []
  | (tag, len) :: ps => contribution tag len ++ resolved ps

/-- The 255-byte `data_buffer` as `getProcessingOptions` hands it over:
`WriteBuffer data_options(data_buffer, sizeof(data_buffer))`. -/
def dataBuffer : WriteBuffer := ⟨255, []⟩

/-! ## The loop of `buildDataOptionsList` seen on the unread bytes -/

/-- The body of the loop of `buildDataOptionsList` once a tag and a length
have been read: what is written for the pair, then the continuation `k`. -/
def emitPair (tag len : Nat) (wb : WriteBuffer) (k : WriteBuffer → BuildResult) : BuildResult :=
  match getDataOption tag with
  | .overrun i => .overrun i
  | .null => k (padZeros len wb)
  | .found option =>
    let out := wb.putBytes option.value (min option.value_length len)
    if option.value_length ≠ len then
      if min option.value_length len < len then
        k (padZeros ((len + 256 - option.value_length) % 256) out)
      else k out
    else k out

/-- The run of the loop of `buildDataOptionsList` as a function of the bytes
that are still unread. -/
def runDol : List Nat → WriteBuffer → BuildResult
  | [], wb => .returned true wb
  | [_], wb => .returned false wb
  | [b0, b1], wb =>
    if b0 % 32 = 31 then .returned false wb else emitPair b0 b1 wb (runDol [])
  | b0 :: b1 :: len :: rest, wb =>
    if b0 % 32 = 31 then emitPair (b0 * 256 + b1) len wb (runDol rest)
    else emitPair b0 b1 wb (runDol (len :: rest))

/-! ## Decoded responses and the card (collaborators) -/

/-- Modelled from the spec: the decoded response `TLVS` of `tlv.h` (missing
from the sources): the top-level nodes in the order they were decoded. -/
structure TLVS where
  roots : List TLVNode

mutual
/-- Search below a node, in document order. -/
def findInNode (tag : Nat) : TLVNode → Option (TLVNode × List TLVNode)
  | .mk _ _ cs => findInList tag cs
/-- Search a list of sibling nodes and what is below them, in document
order; the result is the node found and the siblings that follow it. -/
def findInList (tag : Nat) : List TLVNode → Option (TLVNode × List TLVNode)
  | [] => none
  | n :: rest =>
    if n.getTag = tag then some (n, rest)
    else
      match findInNode tag n with
      | some c => some c
      | none => findInList tag rest
end

/-- Modelled from the spec: `TLVS::findTLV(tag)`: the first node with the
tag (`none` for `NULL`), together with the siblings that follow it. -/
def TLVS.findTLV (t : TLVS) (tag : Nat) : Option (TLVNode × List TLVNode) :=
  findInList tag t.roots

/-- Modelled from the spec: the nodes visited by
`node = findTLV(tag); while (node != NULL) { ...; node = findNextTLV(node); }`:
the first node with the tag, then its later siblings with the same tag. -/
def TLVS.findAll (t : TLVS) (tag : Nat) : List TLVNode :=
  match t.findTLV tag with
  | none => []
  | some (n, siblings) => n :: siblings.filter (fun m => m.getTag == tag)

/-- The card behind the transport `nfc.inDataExchange`: given the commands
sent so far in the tap cycle (the latest last), the response to the latest
command, or `none` when the exchange fails. -/
abbrev Card := List (List Nat) → Option (List Nat)

/-- The TLV decoder `TLVS::decodeTLVs` as a function from bytes to tree. -/
abbrev Decoder := List Nat → TLVS

/-- The global array `rx_buffer` holding a response: memory read by index. -/
def rxMemory (rx : List Nat) : Nat → Nat := fun i => rx.getD i 0

/-! ## Response status check: `checkApduResponse` (lines 231-247) -/

/-- Result of `checkApduResponse`: the value returned and the indices of
`rx_buffer` that were read, in order. -/
structure ApduCheck where
  ok : Bool
  reads : List Nat
deriving DecidableEq, Repr

/-- Check the status bytes in a response APDU: `checkApduResponse`. The
operator `||` reads `rx_buffer[length-1]` only when `rx_buffer[length-2]` is
0x90. -/
def checkApduResponse (rx_buffer : Nat → Nat) (length : Nat) : ApduCheck :=
  if length < 2 then ⟨false, []⟩
  else if rx_buffer (length - 2) ≠ 0x90 then ⟨false, [length - 2]⟩
  else if rx_buffer (length - 1) ≠ 0x00 then ⟨false, [length - 2, length - 1]⟩
  else ⟨true, [length - 2, length - 1]⟩

/-- The status check as the callers use it, on a received response. -/
def responseOk (rx : List Nat) : Bool := (checkApduResponse (rxMemory rx) rx.length).ok

/-- The response without its two status bytes (`length -= 2`). -/
def payload (rx : List Nat) : List Nat := rx.take (rx.length - 2)

/-! ## Step 1: `getPreferredAID` (lines 254-323) -/

/-- The request APDU of step 1: SELECT `2pay.sys.ddf01`. -/
def discoveryApdu : List Nat :=
  [0x00, 0xA4, 0x04, 0x00, 0x0e,
   0x32, 0x50, 0x41, 0x59, 0x2e, 0x53, 0x59,
   0x53, 0x2e, 0x44, 0x44, 0x46, 0x30, 0x31,
   0x00]

/-- The variables `sel_app_pref`, `sel_aid_node`, `sel_label_node` of the
selection loop. -/
structure Selection where
  sel_app_pref : Nat
  sel_aid_node : Option TLVNode
  sel_label_node : Option TLVNode

/-- The value of `app_pref` for a template: 98 without a priority node,
otherwise byte 0 of the node's value; `none` when that value is empty (the
source then reads outside the value). -/
def appPref (pref_node : Option TLVNode) : Option Nat :=
  match pref_node with
  | none => some 98
  | some p => p.getValue[0]?

/-- The loop `while (node != NULL)` of `getPreferredAID` over the template
nodes, in the order `findTLV`/`findNextTLV` visit them. `none`: a read
outside an empty priority value. -/
def selectLoop : List TLVNode → Selection → Option Selection
  | [], s => some s
  | node :: rest, s =>
    let pref_node := node.findChild 0x87
    let label_node := node.findChild 0x50
    let aid_node := node.findChild 0x4f
    match aid_node with
    | none => selectLoop rest s
    | some aid =>
      match appPref pref_node with
      | none => none
      | some app_pref =>
        if app_pref < s.sel_app_pref then
          selectLoop rest ⟨app_pref, some aid, label_node⟩
        else selectLoop rest s

/-- The selection of `getPreferredAID` on a decoded response: the loop started
with `sel_aid_node = NULL`, `sel_label_node = NULL`, `sel_app_pref = 99`. -/
def selectPreferred (tlvs : TLVS) : Option Selection :=
  selectLoop (tlvs.findAll 0x61) ⟨99, none, none⟩

/-- What `getPreferredAID` returns: a node, `NULL`, or nothing defined (read
outside an empty priority value). -/
inductive AidResult where
  | node (aid_node : TLVNode)
  | null
  | badRead

/-- Get the preferred application identifier from the card:
`getPreferredAID`. Result and the commands sent so far. -/
def getPreferredAID (decode : Decoder) (card : Card) (sent : List (List Nat)) :
    AidResult × List (List Nat) :=
  let sent1 := sent ++ [discoveryApdu]
  match card sent1 with
  | none => (.null, sent1)
  | some rx =>
    if !responseOk rx then (.null, sent1)
    else
      match selectPreferred (decode (payload rx)) with
      | none => (.badRead, sent1)
      | some s =>
        match s.sel_aid_node with
        | none => (.null, sent1)
        | some aid => (.node aid, sent1)

/-! ## Step 2: `selectApplicationID` (lines 331-368) -/

/-- The 255-byte `tx_buffer` at the start of a command:
`WriteBuffer tx(tx_buffer, sizeof(tx_buffer))`. -/
def txBuffer : WriteBuffer := ⟨255, []⟩

/-- The SELECT command built for an AID node. -/
def selectApdu (aid_node : TLVNode) : List Nat :=
  ((((txBuffer.putBytes [0x00, 0xA4, 0x04, 0x00] 4).putByte
      (aid_node.getValueLength % 256)).putBytes
      aid_node.getValue aid_node.getValueLength).putByte 0).data

/-- Select the given AID: `selectApplicationID`. Result: return value, the
PDOL node (tag 9F38) if any, commands sent so far. -/
def selectApplicationID (decode : Decoder) (card : Card) (aid_node : TLVNode)
    (sent : List (List Nat)) : Bool × Option TLVNode × List (List Nat) :=
  let sent1 := sent ++ [selectApdu aid_node]
  match card sent1 with
  | none => (false, none, sent1)
  | some rx =>
    if !responseOk rx then (false, none, sent1)
    else (true, ((decode (payload rx)).findTLV 0x9f38).map Prod.fst, sent1)

/-! ## Step 3: `getProcessingOptions` (lines 502-545) -/

/-- The GET PROCESSING OPTIONS command built around the resolved bytes. -/
def gpoApdu (data_options : WriteBuffer) : List Nat :=
  ((((((txBuffer.putBytes [0x80, 0xA8, 0x00, 0x00] 4).putByte
      ((data_options.pos + 2) % 256)).putByte 0x83).putByte
      (data_options.pos % 256)).putBytes data_options.data data_options.pos).putByte 0).data

/-- What `getProcessingOptions` returns: the AFL node, `NULL`, or nothing
defined (the table search of `getDataOption` read past the array). -/
inductive GpoResult where
  | node (app_files_node : TLVNode)
  | null
  | overrun (index : Nat)

/-- Run GET PROCESSING OPTIONS: `getProcessingOptions`. Result and the
commands sent so far. -/
def getProcessingOptions (decode : Decoder) (card : Card) (pdol_node : Option TLVNode)
    (sent : List (List Nat)) : GpoResult × List (List Nat) :=
  match buildDataOptionsList pdol_node dataBuffer with
  | .overrun i => (.overrun i, sent)
  | .unfinished => (.null, sent)
  | .returned false _ => (.null, sent)
  | .returned true data_options =>
    let sent1 := sent ++ [gpoApdu data_options]
    match card sent1 with
    | none => (.null, sent1)
    | some rx =>
      if !responseOk rx then (.null, sent1)
      else
        match (decode (payload rx)).findTLV 0x94 with
        | none => (.null, sent1)
        | some (node, _) => (.node node, sent1)

/-! ## Step 4: `readAppRecords` (lines 550-591) and `loop` (lines 92-153) -/

/-- The READ RECORD command for a record of a file:
`00 B2 record p2 00` with `p2 = sfi << 3 | 0b100` as a `uint8_t`. -/
def readRecordApdu (sfi record : Nat) : List Nat :=
  ((((txBuffer.putBytes [0x00, 0xB2] 2).putByte record).putByte
      ((sfi <<< 3 ||| 4) % 256)).putByte 0).data

/-- State of a loop that sends commands: the commands sent so far and whether
the loop has ended (`false`: the iteration budget ran out first). -/
structure Progress where
  sent : List (List Nat)
  finished : Bool

/-- The loop `for (uint8_t record = start; record <= end; record++)` of
`readAppRecords`, with an iteration budget; `record++` wraps at 256. The
response is decoded and printed only, whatever the branch. -/
def readAppRecordsLoop (decode : Decoder) (card : Card) (sfi end_ : Nat) :
    Nat → Nat → List (List Nat) → Progress
  | 0, _, sent => ⟨sent, false⟩
  | fuel + 1, record, sent =>
    if record ≤ end_ then
      let sent1 := sent ++ [readRecordApdu sfi record]
      let next := readAppRecordsLoop decode card sfi end_ fuel ((record + 1) % 256) sent1
      match card sent1 with
      | none => next
      | some rx =>
        if !responseOk rx then next
        else
          let _tlvs := decode (payload rx)
          next
    else ⟨sent, true⟩

/-- Read the records `start..end` of a file: `readAppRecords`. -/
def readAppRecords (decode : Decoder) (card : Card) (fuel : Nat) (sfi start end_ : Nat)
    (sent : List (List Nat)) : Progress :=
  readAppRecordsLoop decode card sfi end_ fuel start sent

/-- The loop `while (!app_files.atEnd())` of `loop`: four bytes per entry,
`continue` when one of them cannot be read. `fuel` is the budget of each
run of `readAppRecords`; the first argument is the budget of this loop. -/
def aflLoop (decode : Decoder) (card : Card) (fuel : Nat) :
    Nat → ReadBuffer → List (List Nat) → Progress
  | 0, _, sent => ⟨sent, false⟩
  | n + 1, app_files, sent =>
    if app_files.atEnd then ⟨sent, true⟩
    else
      match app_files.getByte with
      | (none, af1) => aflLoop decode card fuel n af1 sent
      | (some sfi, af1) =>
        match af1.getByte with
        | (none, af2) => aflLoop decode card fuel n af2 sent
        | (some start, af2) =>
          match af2.getByte with
          | (none, af3) => aflLoop decode card fuel n af3 sent
          | (some end_, af3) =>
            match af3.getByte with
            | (none, af4) => aflLoop decode card fuel n af4 sent
            | (some _num_auth_rec, af4) =>
              let r := readAppRecords decode card fuel (sfi >>> 3) start end_ sent
              if r.finished then aflLoop decode card fuel n af4 r.sent
              else r

/-- How a tap cycle ended. -/
inductive Outcome where
  | noCard
  | noAid
  | selectFailed
  | noAppFiles
  | recordsRead
  | undefinedRead
  | unfinished
deriving DecidableEq, Repr

/-- One run of `loop()`: the commands sent to the card and how it ended. -/
structure Cycle where
  sent : List (List Nat)
  outcome : Outcome

/-- One run of `loop()`. `present` is the result of
`nfc.inListPassiveTarget()`, `fuel` the iteration budget of each run of the
record loop. -/
def loop (decode : Decoder) (card : Card) (present : Bool) (fuel : Nat) : Cycle :=
  if !present then ⟨[], .noCard⟩
  else
    match getPreferredAID decode card [] with
    | (.null, sent1) => ⟨sent1, .noAid⟩
    | (.badRead, sent1) => ⟨sent1, .undefinedRead⟩
    | (.node aid_node, sent1) =>
      match selectApplicationID decode card aid_node sent1 with
      | (false, _, sent2) => ⟨sent2, .selectFailed⟩
      | (true, pdol_node, sent2) =>
        match getProcessingOptions decode card pdol_node sent2 with
        | (.null, sent3) => ⟨sent3, .noAppFiles⟩
        | (.overrun _, sent3) => ⟨sent3, .undefinedRead⟩
        | (.node app_files_node, sent3) =>
          let r := aflLoop decode card fuel (app_files_node.getValueLength + 1)
            ⟨app_files_node.getValue, 0⟩ sent3
          if r.finished then ⟨r.sent, .recordsRead⟩ else ⟨r.sent, .unfinished⟩

/-! ## Vocabulary of the claims on application selection -/

/-- The preference value `getPreferredAID` works with for a template that
carries an AID: `none` for a template without AID (the template is ignored)
and for one whose priority value is empty. -/
def candidatePref (t : TLVNode) : Option Nat :=
  match t.findChild 0x4f with
  | none => none
  | some _ => appPref (t.findChild 0x87)

/-- The templates of a response are well formed when every priority
indicator that comes with an AID has at least one value byte. -/
def PrioritiesReadable (ts : List TLVNode) : Prop :=
  ∀ t ∈ ts, t.findChild 0x4f ≠ none → appPref (t.findChild 0x87) ≠ none

/-- A template that carries an AID node and an explicit one-byte priority
indicator with value `v`. -/
def HasAidAndPriority (t : TLVNode) (aid : TLVNode) (v : Nat) : Prop :=
  t.findChild 0x4f = some aid ∧ ∃ p, t.findChild 0x87 = some p ∧ p.getValue = [v]

/-- An application template (tag 61) with an AID (tag 4F) and a one-byte
priority indicator (tag 87). -/
def templateWithPriority (aid : List Nat) (priority : Nat) : TLVNode :=
  .mk 0x61 [] [.mk 0x4f aid [], .mk 0x87 [priority] []]

/-- An application template (tag 61) with an AID (tag 4F) and no priority
indicator. -/
def templateWithoutPriority (aid : List Nat) : TLVNode :=
  .mk 0x61 [] [.mk 0x4f aid []]

/-- A card that answers every command with the same response. -/
def cardAnswering (rx : List Nat) : Card := fun _ => some rx

/-- A decoder known on one byte string: it yields the given nodes for these
bytes and nothing for any other input. -/
def decoderOf (bytes : List Nat) (nodes : List TLVNode) : Decoder :=
  fun b => if b = bytes then ⟨nodes⟩ else ⟨[]⟩

/-- The AID `A0000000031010`. -/
def aidVisa : List Nat := [0xA0, 0x00, 0x00, 0x00, 0x03, 0x10, 0x10]

/-- The AID `A0000000041010`. -/
def aidMastercard : List Nat := [0xA0, 0x00, 0x00, 0x00, 0x04, 0x10, 0x10]

/-- A decoder known on a few byte strings: it yields the nodes listed for
them and nothing for any other input. -/
def decoderTable (table : List (List Nat × List TLVNode)) : Decoder :=
  fun b =>
    match table.find? (fun e => e.1 == b) with
    | some e => ⟨e.2⟩
    | none => ⟨[]⟩

/-- A card that answers the n-th command of a tap cycle with the n-th
response of a script, and the commands after the script with the last
argument (`none`: the exchange fails). -/
def scriptedCard (script : List (List Nat)) (later : Option (List Nat)) : Card :=
  fun sent =>
    match script[sent.length - 1]? with
    | some rx => some rx
    | none => later

/-- Payload of a discovery response with one application template:
`61 09 4F 07 A0000000031010`. -/
def discoveryPayload : List Nat :=
  [0x61, 0x09, 0x4F, 0x07, 0xA0, 0x00, 0x00, 0x00, 0x03, 0x10, 0x10]

/-- Payload of a SELECT response without PDOL: `6F 09 84 07 A0000000031010`. -/
def selectPayload : List Nat :=
  [0x6F, 0x09, 0x84, 0x07, 0xA0, 0x00, 0x00, 0x00, 0x03, 0x10, 0x10]

/-- Payload of a GET PROCESSING OPTIONS response whose AFL is `08 01 FF 00`
(SFI 1, first record 1, last record 255): `77 0A 82 02 20 00 94 04 08 01 FF 00`. -/
def gpoPayloadLast255 : List Nat :=
  [0x77, 0x0A, 0x82, 0x02, 0x20, 0x00, 0x94, 0x04, 0x08, 0x01, 0xFF, 0x00]

/-- The trees of the three payloads above. -/
def last255Decoder : Decoder :=
  decoderTable
    [ (discoveryPayload, [templateWithoutPriority aidVisa]),
      (selectPayload, [.mk 0x6F (selectPayload.drop 2) [.mk 0x84 aidVisa []]]),
      (gpoPayloadLast255,
        [.mk 0x77 (gpoPayloadLast255.drop 2)
          [.mk 0x82 [0x20, 0x00] [], .mk 0x94 [0x08, 0x01, 0xFF, 0x00] []]]) ]

/-- A card that answers the three exchanges of steps 1-3 with the payloads
above and `90 00`, and every READ RECORD with `6A 83` (record not found). -/
def last255Card : Card :=
  scriptedCard
    [discoveryPayload ++ [0x90, 0x00], selectPayload ++ [0x90, 0x00],
      gpoPayloadLast255 ++ [0x90, 0x00]]
    (some [0x6A, 0x83])

/-! ## Step 4 seen on the AFL bytes -/

/-- The run of the AFL loop of `loop` as a function of the AFL bytes that are
still unread: a complete group of four bytes is handed to `readAppRecords`,
fewer than four bytes end the loop. -/
def runAfl (decode : Decoder) (card : Card) (fuel : Nat) :
    List Nat → List (List Nat) → Progress
  | b0 :: b1 :: b2 :: _ :: rest, sent =>
    let r := readAppRecords decode card fuel (b0 >>> 3) b1 b2 sent
    if r.finished then runAfl decode card fuel rest r.sent else r
  | _, sent => ⟨sent, true⟩

/-- The READ RECORD commands of one run of the record loop, as a function of
the file, the bounds and the iteration budget alone, and whether the loop
ended within the budget. -/
def recordCommands (sfi end_ : Nat) : Nat → Nat → List (List Nat) × Bool
  | 0, _ => ([], false)
  | fuel + 1, record =>
    if record ≤ end_ then
      (readRecordApdu sfi record :: (recordCommands sfi end_ fuel ((record + 1) % 256)).1,
        (recordCommands sfi end_ fuel ((record + 1) % 256)).2)
    else ([], true)

/-- The READ RECORD commands of step 4 as a function of the AFL bytes and the
iteration budget alone, and whether step 4 ended within the budget. -/
def aflCommands (fuel : Nat) : List Nat → List (List Nat) × Bool
  | b0 :: b1 :: b2 :: _ :: rest =>
    if (recordCommands (b0 >>> 3) b2 fuel b1).2 then
      ((recordCommands (b0 >>> 3) b2 fuel b1).1 ++ (aflCommands fuel rest).1,
        (aflCommands fuel rest).2)
    else ((recordCommands (b0 >>> 3) b2 fuel b1).1, false)
  | _ => ([], true)

/-- The bytes of an AFL made of complete groups
`(byte 0, first record, last record, number of authenticated records)`. -/
def encodeAfl : List (Nat × Nat × Nat × Nat) → List Nat
  | [] => []
  | (b0, first, last, num) :: gs => b0 :: first :: last :: num :: encodeAfl gs

/-! ## Vocabulary of the claims on DOL requests -/

/-- A DOL request is made of complete pairs: every tag identifier (one byte,
or two when the low five bits of the first are all set) is followed by its
length byte, up to the end of the request. -/
def completePairs : List Nat → Bool
  | [] => true
  | [_] => false
  | [b0, _] => decide (b0 % 32 ≠ 31)
  | b0 :: _ :: b2 :: rest =>
    if b0 % 32 = 31 then completePairs rest else completePairs (b2 :: rest)

/-- The bytes left at the end of a request when its last pair cannot be
parsed: a single byte (a tag without length, or half a tag), or a two-byte
tag without length. -/
def cutPair : List Nat → Bool
  | [_] => true
  | [b0, _] => decide (b0 % 32 = 31)
  | _ => false

/-- Running a second resolution on the buffer a first one returned: the
second starts only when the first returned true. -/
def BuildResult.andThen (r : BuildResult) (next : WriteBuffer → BuildResult) : BuildResult :=
  match r with
  | .returned true out => next out
  | other => other

/-! ## The end-to-end scenario of the specification -/

/-- The SELECT command for the AID `A0000000031010`:
`00 A4 04 00 07 A0 00 00 00 03 10 10 00`. -/
def selectVisaApdu : List Nat :=
  [0x00, 0xA4, 0x04, 0x00, 0x07, 0xA0, 0x00, 0x00, 0x00, 0x03, 0x10, 0x10, 0x00]

/-- Payload of a discovery response with two application templates, the
first with AID `A0000000031010` and priority 1, the second with AID
`A0000000041010` and no priority indicator. -/
def twoTemplatesPayload : List Nat :=
  [0x61, 0x0C, 0x4F, 0x07, 0xA0, 0x00, 0x00, 0x00, 0x03, 0x10, 0x10, 0x87, 0x01, 0x01,
   0x61, 0x09, 0x4F, 0x07, 0xA0, 0x00, 0x00, 0x00, 0x04, 0x10, 0x10]

/-- Payload of a GET PROCESSING OPTIONS response whose AFL is `18 01 01 00`:
`77 0A 82 02 20 00 94 04 18 01 01 00`. -/
def gpoPayloadOneRecord : List Nat :=
  [0x77, 0x0A, 0x82, 0x02, 0x20, 0x00, 0x94, 0x04, 0x18, 0x01, 0x01, 0x00]

/-- The trees of the payloads of the scenario. -/
def scenarioDecoder : Decoder :=
  decoderTable
    [ (twoTemplatesPayload,
        [templateWithPriority aidVisa 1, templateWithoutPriority aidMastercard]),
      (selectPayload, [.mk 0x6F (selectPayload.drop 2) [.mk 0x84 aidVisa []]]),
      (gpoPayloadOneRecord,
        [.mk 0x77 (gpoPayloadOneRecord.drop 2)
          [.mk 0x82 [0x20, 0x00] [], .mk 0x94 [0x18, 0x01, 0x01, 0x00] []]]),
      ([0x70, 0x00], [.mk 0x70 [] []]) ]

/-- The card of the scenario: every response ends in `90 00`. -/
def scenarioCard : Card :=
  scriptedCard
    [twoTemplatesPayload ++ [0x90, 0x00], selectPayload ++ [0x90, 0x00],
      gpoPayloadOneRecord ++ [0x90, 0x00]]
    (some [0x70, 0x00, 0x90, 0x00])

theorem drop_cons_inv {l : List Nat} {p b : Nat} {t : List Nat} (h : l.drop p = b :: t) :
    l[p]? = some b ∧ l.drop (p + 1) = t := by
  induction l generalizing p with
  | nil => simp at h
  | cons a l ih =>
    cases p with
    | zero =>
      simp only [List.drop_zero, List.cons.injEq] at h
      simp [h.1, h.2]
    | succ p =>
      simp only [List.drop_succ_cons] at h
      simpa using ih h

theorem getByte_of_drop_cons {rb : ReadBuffer} {b : Nat} {t : List Nat}
    (h : rb.buffer.drop rb.pos = b :: t) :
    rb.getByte = (some b, ⟨rb.buffer, rb.pos + 1⟩) := by
  simp [ReadBuffer.getByte, (drop_cons_inv h).1]

theorem getByte_of_drop_nil {rb : ReadBuffer} (h : rb.buffer.drop rb.pos = []) :
    rb.getByte = (none, rb) := by
  have hle : rb.buffer.length ≤ rb.pos := List.drop_eq_nil_iff.mp h
  simp [ReadBuffer.getByte, List.getElem?_eq_none hle]

theorem atEnd_of_drop_nil {rb : ReadBuffer} (h : rb.buffer.drop rb.pos = []) :
    rb.atEnd = true := by
  have hle : rb.buffer.length ≤ rb.pos := List.drop_eq_nil_iff.mp h
  simp [ReadBuffer.atEnd, hle]

theorem atEnd_of_drop_cons {rb : ReadBuffer} {b : Nat} {t : List Nat}
    (h : rb.buffer.drop rb.pos = b :: t) : rb.atEnd = false := by
  have hlt : ¬ rb.buffer.length ≤ rb.pos := by
    intro hle
    rw [List.drop_eq_nil_iff.mpr hle] at h
    exact List.noConfusion h
  simp [ReadBuffer.atEnd, hlt]

theorem buildLoop_body_eq (fuel : Nat) (buf : List Nat) (p : Nat) (tag len : Nat)
    (wb : WriteBuffer) :
    (match getDataOption tag with
      | .overrun i => BuildResult.overrun i
      | .null => buildLoop fuel ⟨buf, p⟩ (padZeros len wb)
      | .found option =>
        let copy_len := min option.value_length len
        let out := wb.putBytes option.value copy_len
        if option.value_length ≠ len then
          if copy_len < len then
            buildLoop fuel ⟨buf, p⟩ (padZeros ((len + 256 - option.value_length) % 256) out)
          else buildLoop fuel ⟨buf, p⟩ out
        else buildLoop fuel ⟨buf, p⟩ out)
      = emitPair tag len wb (buildLoop fuel ⟨buf, p⟩) := by
  unfold emitPair
  cases getDataOption tag <;> rfl

/-- The loop of `buildDataOptionsList` computes `runDol` on the unread bytes
as soon as the budget exceeds their number. -/
theorem buildLoop_eq_runDol (fuel : Nat) :
    ∀ (buf : List Nat) (p : Nat) (wb : WriteBuffer), (buf.drop p).length < fuel →
      buildLoop fuel ⟨buf, p⟩ wb = runDol (buf.drop p) wb := by
  induction fuel with
  | zero => intro buf p wb h; exact absurd h (Nat.not_lt_zero _)
  | succ fuel ih =>
    intro buf p wb h
    rcases hd : buf.drop p with _ | ⟨b0, t0⟩
    · have hd' : (⟨buf, p⟩ : ReadBuffer).buffer.drop (⟨buf, p⟩ : ReadBuffer).pos = [] := hd
      simp [buildLoop, atEnd_of_drop_nil hd', runDol]
    · have hd' : (⟨buf, p⟩ : ReadBuffer).buffer.drop (⟨buf, p⟩ : ReadBuffer).pos = b0 :: t0 := hd
      have h1 := (drop_cons_inv hd).2
      have g0 := getByte_of_drop_cons hd'
      rw [hd] at h
      simp only [List.length_cons] at h
      rcases t0 with _ | ⟨b1, t1⟩
      · have h1' : (⟨buf, p + 1⟩ : ReadBuffer).buffer.drop (⟨buf, p + 1⟩ : ReadBuffer).pos = [] := h1
        have g1 := getByte_of_drop_nil h1'
        by_cases hb : b0 % 32 = 31
        · simp [buildLoop, atEnd_of_drop_cons hd', parseTag, g0, g1, hb, runDol]
        · simp [buildLoop, atEnd_of_drop_cons hd', parseTag, g0, g1, hb, runDol]
      · have h1' : (⟨buf, p + 1⟩ : ReadBuffer).buffer.drop (⟨buf, p + 1⟩ : ReadBuffer).pos
            = b1 :: t1 := h1
        have g1 := getByte_of_drop_cons h1'
        have h2 := (drop_cons_inv h1).2
        simp only [List.length_cons] at h
        rcases t1 with _ | ⟨b2, t2⟩
        · have h2' : (⟨buf, p + 1 + 1⟩ : ReadBuffer).buffer.drop
              (⟨buf, p + 1 + 1⟩ : ReadBuffer).pos = [] := h2
          have g2 := getByte_of_drop_nil h2'
          by_cases hb : b0 % 32 = 31
          · simp [buildLoop, atEnd_of_drop_cons hd', parseTag, g0, g1, g2, hb, runDol]
          · have ih0 : ∀ w, buildLoop fuel ⟨buf, p + 1 + 1⟩ w = runDol [] w := fun w => by
              have := ih buf (p + 1 + 1) w (by rw [h2]; simp only [List.length_nil]; omega)
              rwa [h2] at this
            simp only [buildLoop, atEnd_of_drop_cons hd', parseTag, g0, g1, hb, runDol,
              if_false, Bool.false_eq_true]
            rw [buildLoop_body_eq]
            congr 1
            funext w
            exact ih0 w
        · have h2' : (⟨buf, p + 1 + 1⟩ : ReadBuffer).buffer.drop
              (⟨buf, p + 1 + 1⟩ : ReadBuffer).pos = b2 :: t2 := h2
          have g2 := getByte_of_drop_cons h2'
          have h3 := (drop_cons_inv h2).2
          simp only [List.length_cons] at h
          by_cases hb : b0 % 32 = 31
          · have ih0 : ∀ w, buildLoop fuel ⟨buf, p + 1 + 1 + 1⟩ w = runDol t2 w := fun w => by
              have := ih buf (p + 1 + 1 + 1) w (by rw [h3]; omega)
              rwa [h3] at this
            simp only [buildLoop, atEnd_of_drop_cons hd', parseTag, g0, g1, g2, hb, runDol,
              if_true, if_false, Bool.false_eq_true]
            rw [buildLoop_body_eq]
            congr 1
            funext w
            exact ih0 w
          · have ih0 : ∀ w, buildLoop fuel ⟨buf, p + 1 + 1⟩ w = runDol (b2 :: t2) w := fun w => by
              have := ih buf (p + 1 + 1) w (by rw [h2]; simp only [List.length_cons]; omega)
              rwa [h2] at this
            simp only [buildLoop, atEnd_of_drop_cons hd', parseTag, g0, g1, hb, runDol,
              if_false, Bool.false_eq_true]
            rw [buildLoop_body_eq]
            congr 1
            funext w
            exact ih0 w

/-- `buildDataOptionsList` is `runDol` on the value of the PDOL node. -/
theorem buildDataOptionsList_some (value : List Nat) (wb : WriteBuffer) :
    buildDataOptionsList (some (pdolNode value)) wb = runDol value wb := by
  have h := buildLoop_eq_runDol (value.length + 1) value 0 wb (by simp)
  simpa [buildDataOptionsList, pdolNode, TLVNode.getValueLength, TLVNode.getValue] using h

/-! ## Writing into a buffer that has room -/

theorem putByte_room (wb : WriteBuffer) (b : Nat) (h : wb.pos < wb.buffer_size) :
    wb.putByte b = ⟨wb.buffer_size, wb.data ++ [b]⟩ := by
  simp [WriteBuffer.putByte, h]

theorem foldl_putByte_room (l : List Nat) :
    ∀ wb : WriteBuffer, wb.pos + l.length ≤ wb.buffer_size →
      l.foldl WriteBuffer.putByte wb = ⟨wb.buffer_size, wb.data ++ l⟩ := by
  induction l with
  | nil => intro wb _; simp
  | cons a l ih =>
    intro wb h
    simp only [List.length_cons] at h
    rw [List.foldl_cons, putByte_room wb a (by omega)]
    rw [ih _ (by simp only [WriteBuffer.pos, List.length_append, List.length_singleton] at *; omega)]
    simp

theorem putBytes_room (wb : WriteBuffer) (src : List Nat) (count : Nat)
    (h : wb.pos + (src.take count).length ≤ wb.buffer_size) :
    wb.putBytes src count = ⟨wb.buffer_size, wb.data ++ src.take count⟩ :=
  foldl_putByte_room _ wb h

theorem padZeros_room (n : Nat) :
    ∀ wb : WriteBuffer, wb.pos + n ≤ wb.buffer_size →
      padZeros n wb = ⟨wb.buffer_size, wb.data ++ List.replicate n 0⟩ := by
  induction n with
  | zero => intro wb _; simp [padZeros]
  | succ n ih =>
    intro wb h
    rw [padZeros, putByte_room wb 0 (by omega)]
    rw [ih _ (by simp only [WriteBuffer.pos, List.length_append, List.length_singleton] at *; omega)]
    simp [List.replicate_succ]

/-! ## The table search -/

theorem getDataOption_dictionary (tag : Nat) (h : tag ∈ dictionaryTags) :
    getDataOption tag = .found ⟨tag, storedValue tag, (storedValue tag).length⟩ := by
  simp only [dictionaryTags, data_options_list, List.map_cons, List.map_nil, List.mem_cons,
    List.mem_singleton, List.not_mem_nil, or_false] at h
  rcases h with h | h | h | h | h | h | h | h <;> subst h <;> decide

theorem getDataOption_unknown (tag : Nat) (h : tag ∉ dictionaryTags) :
    getDataOption tag = .overrun 8 := by
  simp only [dictionaryTags, data_options_list, List.map_cons, List.map_nil, List.mem_cons,
    List.mem_singleton, List.not_mem_nil, or_false, not_or] at h
  obtain ⟨h1, h2, h3, h4, h5, h6, h7, h8⟩ := h
  have e : sizeof_data_options_list = 87 + 1 + 1 + 1 + 1 + 1 + 1 + 1 + 1 + 1 := by decide
  simp [getDataOption, e, getDataOptionLoop, data_options_list, Ne.symm h1, Ne.symm h2,
    Ne.symm h3, Ne.symm h4, Ne.symm h5, Ne.symm h6, Ne.symm h7, Ne.symm h8]

theorem contribution_length (tag len : Nat) : (contribution tag len).length = len := by
  simp only [contribution, List.length_append, List.length_take, List.length_replicate]
  omega

/-- What the loop body writes for a pair whose tag is in the dictionary, when
the output buffer has room for the requested length. -/
theorem emitPair_dictionary (tag len : Nat) (wb : WriteBuffer) (k : WriteBuffer → BuildResult)
    (h : tag ∈ dictionaryTags) (hlen : len < 256) (hroom : wb.pos + len ≤ wb.buffer_size) :
    emitPair tag len wb k = k ⟨wb.buffer_size, wb.data ++ contribution tag len⟩ := by
  have hput : wb.putBytes (storedValue tag) (min (storedValue tag).length len)
      = ⟨wb.buffer_size, wb.data ++ (storedValue tag).take (min (storedValue tag).length len)⟩ := by
    apply putBytes_room
    simp only [List.length_take]
    omega
  simp only [emitPair, getDataOption_dictionary tag h, hput]
  rcases Nat.lt_trichotomy (storedValue tag).length len with hlt | heq | hgt
  · have hmin : min (storedValue tag).length len = (storedValue tag).length := by omega
    have hmod : (len + 256 - (storedValue tag).length) % 256 = len - (storedValue tag).length := by
      omega
    have hne : (storedValue tag).length ≠ len := by omega
    rw [if_pos hne, hmin, if_pos hlt, hmod, padZeros_room _ _ (by
      simp only [WriteBuffer.pos, List.length_append, List.length_take] at *; omega)]
    simp [contribution, List.take_of_length_le (Nat.le_of_lt hlt)]
  · simp [contribution, heq]
  · have hmin : min (storedValue tag).length len = len := by omega
    have hne : (storedValue tag).length ≠ len := by omega
    have hsub : len - (storedValue tag).length = 0 := by omega
    rw [if_pos hne, hmin, if_neg (Nat.lt_irrefl _)]
    simp [contribution, hsub]

theorem dictionary_tag_bytes (tag : Nat) (h : tag ∈ dictionaryTags) :
    (tag / 256) % 32 = 31 ∧ tag / 256 * 256 + tag % 256 = tag := by
  simp only [dictionaryTags, data_options_list, List.map_cons, List.map_nil, List.mem_cons,
    List.mem_singleton, List.not_mem_nil, or_false] at h
  rcases h with h | h | h | h | h | h | h | h <;> subst h <;> decide

/-- One loop iteration on a complete pair with a dictionary tag. -/
theorem runDol_dictionary_pair (tag len : Nat) (rest : List Nat) (wb : WriteBuffer)
    (h : tag ∈ dictionaryTags) (hlen : len < 256) (hroom : wb.pos + len ≤ wb.buffer_size) :
    runDol (encodeDol [(tag, len)] ++ rest) wb
      = runDol rest ⟨wb.buffer_size, wb.data ++ contribution tag len⟩ := by
  obtain ⟨h31, hval⟩ := dictionary_tag_bytes tag h
  simp only [encodeDol, List.cons_append, List.nil_append, runDol, h31, if_true, hval]
  exact emitPair_dictionary tag len wb _ h hlen hroom

theorem resolved_length (ps : List (Nat × Nat)) : (resolved ps).length = requestedTotal ps := by
  induction ps with
  | nil => rfl
  | cons p ps ih =>
    obtain ⟨t, n⟩ := p
    simp [resolved, requestedTotal, contribution_length, ih]

/-- A request of complete pairs with dictionary tags, resolved into a buffer
with room for the sum of the requested lengths. -/
theorem runDol_dictionary (ps : List (Nat × Nat)) :
    ∀ wb : WriteBuffer, (∀ p ∈ ps, p.1 ∈ dictionaryTags ∧ p.2 < 256) →
      wb.pos + requestedTotal ps ≤ wb.buffer_size →
      runDol (encodeDol ps) wb = .returned true ⟨wb.buffer_size, wb.data ++ resolved ps⟩ := by
  induction ps with
  | nil => intro wb _ _; simp [encodeDol, runDol, resolved]
  | cons p ps ih =>
    intro wb hall hroom
    obtain ⟨t, n⟩ := p
    have hp := hall (t, n) (List.mem_cons_self _ _)
    simp only [requestedTotal] at hroom
    have hstep := runDol_dictionary_pair t n (encodeDol ps) wb hp.1 hp.2 (by omega)
    have henc : encodeDol ((t, n) :: ps) = encodeDol [(t, n)] ++ encodeDol ps := by
      simp [encodeDol]
    rw [henc, hstep, ih _ (fun q hq => hall q (List.mem_cons_of_mem _ hq)) (by
      simp only [WriteBuffer.pos, List.length_append, contribution_length] at *; omega)]
    simp [resolved]

/-! ## Claims on DOL resolution -/

/-- C1 (as amended): for a DOL request made of complete pairs whose tags are
all in the terminal data dictionary, resolved into an output buffer that has
room for the sum of the requested lengths, `buildDataOptionsList` succeeds,
appends exactly that many bytes, the bytes being the concatenation of the
per-pair contributions, and each pair contributes exactly its requested
length. -/
theorem C1_dictionary_request_length (ps : List (Nat × Nat)) (wb : WriteBuffer)
    (hall : ∀ p ∈ ps, p.1 ∈ dictionaryTags ∧ p.2 < 256)
    (hroom : wb.pos + requestedTotal ps ≤ wb.buffer_size) :
    ∃ out : WriteBuffer,
      buildDataOptionsList (some (pdolNode (encodeDol ps))) wb = .returned true out ∧
      out.data = wb.data ++ resolved ps ∧
      out.pos = wb.pos + requestedTotal ps ∧
      ∀ p ∈ ps, (contribution p.1 p.2).length = p.2 := by
  refine ⟨⟨wb.buffer_size, wb.data ++ resolved ps⟩, ?_, rfl, ?_, ?_⟩
  · rw [buildDataOptionsList_some]
    exact runDol_dictionary ps wb hall hroom
  · simp [WriteBuffer.pos, resolved_length]
  · intro p _
    exact contribution_length p.1 p.2

/-- Witness for C1: the request `9F66 04 5F2A 02` into the empty 255-byte
data buffer. -/
theorem C1_dictionary_request_length_witness :
    ∃ out : WriteBuffer,
      buildDataOptionsList (some (pdolNode (encodeDol [(0x9f66, 4), (0x5f2a, 2)]))) dataBuffer
        = .returned true out ∧
      out.data = dataBuffer.data ++ resolved [(0x9f66, 4), (0x5f2a, 2)] ∧
      out.pos = dataBuffer.pos + requestedTotal [(0x9f66, 4), (0x5f2a, 2)] ∧
      ∀ p ∈ [(0x9f66, 4), (0x5f2a, 2)], (contribution p.1 p.2).length = p.2 :=
  C1_dictionary_request_length [(0x9f66, 4), (0x5f2a, 2)] dataBuffer (by decide) (by decide)

/-- C1 fails as stated: the request `9F4E FF 9F35 01` asks for 256 bytes, all
tags are in the dictionary, and the 255-byte data buffer ends with 255 bytes
written. -/
theorem C1_counterexample :
    (∀ p ∈ [(0x9f4e, 255), (0x9f35, 1)], p.1 ∈ dictionaryTags ∧ p.2 < 256) ∧
    requestedTotal [(0x9f4e, 255), (0x9f35, 1)] = 256 ∧
    ∃ out : WriteBuffer,
      buildDataOptionsList (some (pdolNode (encodeDol [(0x9f4e, 255), (0x9f35, 1)]))) dataBuffer
        = .returned true out ∧ out.pos = 255 := by
  refine ⟨by decide, by decide, ⟨255, contribution 0x9f4e 255⟩, ?_, ?_⟩
  · rw [buildDataOptionsList_some]
    have h1 := runDol_dictionary_pair 0x9f4e 255 (encodeDol [(0x9f35, 1)]) dataBuffer
      (by decide) (by decide) (by decide)
    have henc : encodeDol [(0x9f4e, 255), (0x9f35, 1)]
        = encodeDol [(0x9f4e, 255)] ++ encodeDol [(0x9f35, 1)] := by simp [encodeDol]
    rw [henc, h1]
    have hfull : ¬ (contribution 0x9f4e 255).length < 255 := by
      rw [contribution_length]; exact Nat.lt_irrefl _
    have hget : getDataOption 0x9f35 = .found ⟨0x9f35, [0x14], 1⟩ := by decide
    simp [encodeDol, runDol, emitPair, hget, dataBuffer, WriteBuffer.putBytes,
      WriteBuffer.putByte, WriteBuffer.pos, hfull]
  · simp [WriteBuffer.pos, contribution_length]

/-- C2: at the request `9F02 06` (amount authorised, a tag the dictionary does
not hold) the table search of `getDataOption` runs past the eighth entry and
reads `data_options_list[8]`; no zero bytes are produced by a defined run. -/
theorem C2_unknown_tag_overruns_table :
    0x9f02 ∉ dictionaryTags ∧
    getDataOption 0x9f02 = .overrun 8 ∧
    buildDataOptionsList (some (pdolNode [0x9f, 0x02, 0x06])) dataBuffer = .overrun 8 := by
  decide

/-- C3 (as amended): for a dictionary tag whose stored value `v` is longer
than the requested length `n`, the segment `buildDataOptionsList` writes for
the pair `(tag, n)` is the first `n` bytes of `v` and nothing else whenever
the output buffer has `n` free bytes when the pair is reached: so it is for
the pair alone in the empty 255-byte data buffer, and inside any request,
with any output buffer that has `n` free bytes, the pair contributes exactly
those bytes before the rest of the request is resolved. -/
theorem C3_long_value_truncated (tag n : Nat) (h : tag ∈ dictionaryTags)
    (hn : n < (storedValue tag).length) :
    buildDataOptionsList (some (pdolNode (encodeDol [(tag, n)]))) dataBuffer
      = .returned true ⟨255, (storedValue tag).take n⟩ ∧
    ∀ (rest : List Nat) (wb : WriteBuffer), wb.pos + n ≤ wb.buffer_size →
      buildDataOptionsList (some (pdolNode (encodeDol [(tag, n)] ++ rest))) wb
        = buildDataOptionsList (some (pdolNode rest))
            ⟨wb.buffer_size, wb.data ++ (storedValue tag).take n⟩ := by
  have hv : (storedValue tag).length ≤ 32 := by
    simp only [dictionaryTags, data_options_list, List.map_cons, List.map_nil, List.mem_cons,
      List.mem_singleton, List.not_mem_nil, or_false] at h
    rcases h with h | h | h | h | h | h | h | h <;> subst h <;> decide
  have hc : contribution tag n = (storedValue tag).take n := by
    have h0 : n - (storedValue tag).length = 0 := by omega
    simp [contribution, h0]
  constructor
  · have := runDol_dictionary_pair tag n [] dataBuffer h (by omega) (by
      simp only [dataBuffer, WriteBuffer.pos, List.length_nil]; omega)
    rw [buildDataOptionsList_some]
    simpa [hc, runDol, dataBuffer] using this
  · intro rest wb hroom
    rw [buildDataOptionsList_some, buildDataOptionsList_some,
      runDol_dictionary_pair tag n rest wb h (by omega) hroom, hc]

/-- Witness for C3: the merchant name (32 bytes stored) requested with
length 3. -/
theorem C3_long_value_truncated_witness :
    buildDataOptionsList (some (pdolNode (encodeDol [(0x9f4e, 3)]))) dataBuffer
      = .returned true ⟨255, (storedValue 0x9f4e).take 3⟩ ∧
    ∀ (rest : List Nat) (wb : WriteBuffer), wb.pos + 3 ≤ wb.buffer_size →
      buildDataOptionsList (some (pdolNode (encodeDol [(0x9f4e, 3)] ++ rest))) wb
        = buildDataOptionsList (some (pdolNode rest))
            ⟨wb.buffer_size, wb.data ++ (storedValue 0x9f4e).take 3⟩ :=
  C3_long_value_truncated 0x9f4e 3 (by decide) (by decide)

/-- C4 (as amended): for a dictionary tag whose stored value `v` is shorter
than the requested length `n` (at most 255), the segment
`buildDataOptionsList` writes for the pair `(tag, n)` is the whole of `v`
followed by exactly `n - |v|` zero bytes whenever the output buffer has `n`
free bytes when the pair is reached: so it is for the pair alone in the empty
255-byte data buffer, and inside any request, with any output buffer that has
`n` free bytes, the pair contributes exactly those bytes before the rest of
the request is resolved. -/
theorem C4_short_value_padded (tag n : Nat) (h : tag ∈ dictionaryTags)
    (hn : (storedValue tag).length < n) (hn255 : n ≤ 255) :
    buildDataOptionsList (some (pdolNode (encodeDol [(tag, n)]))) dataBuffer
      = .returned true
          ⟨255, storedValue tag ++ List.replicate (n - (storedValue tag).length) 0⟩ ∧
    ∀ (rest : List Nat) (wb : WriteBuffer), wb.pos + n ≤ wb.buffer_size →
      buildDataOptionsList (some (pdolNode (encodeDol [(tag, n)] ++ rest))) wb
        = buildDataOptionsList (some (pdolNode rest))
            ⟨wb.buffer_size,
              wb.data ++ (storedValue tag ++ List.replicate (n - (storedValue tag).length) 0)⟩ := by
  have hc : contribution tag n
      = storedValue tag ++ List.replicate (n - (storedValue tag).length) 0 := by
    simp [contribution, List.take_of_length_le (Nat.le_of_lt hn)]
  constructor
  · have := runDol_dictionary_pair tag n [] dataBuffer h (by omega) (by
      simp only [dataBuffer, WriteBuffer.pos, List.length_nil]; omega)
    rw [buildDataOptionsList_some]
    simpa [hc, runDol, dataBuffer] using this
  · intro rest wb hroom
    rw [buildDataOptionsList_some, buildDataOptionsList_some,
      runDol_dictionary_pair tag n rest wb h (by omega) hroom, hc]

/-- Witness for C4: the terminal type (1 byte stored) requested with the
largest length, 255. -/
theorem C4_short_value_padded_witness :
    buildDataOptionsList (some (pdolNode (encodeDol [(0x9f35, 255)]))) dataBuffer
      = .returned true
          ⟨255, storedValue 0x9f35 ++ List.replicate (255 - (storedValue 0x9f35).length) 0⟩ ∧
    ∀ (rest : List Nat) (wb : WriteBuffer), wb.pos + 255 ≤ wb.buffer_size →
      buildDataOptionsList (some (pdolNode (encodeDol [(0x9f35, 255)] ++ rest))) wb
        = buildDataOptionsList (some (pdolNode rest))
            ⟨wb.buffer_size,
              wb.data ++ (storedValue 0x9f35
                ++ List.replicate (255 - (storedValue 0x9f35).length) 0)⟩ :=
  C4_short_value_padded 0x9f35 255 (by decide) (by decide) (by decide)

/-! ## Application selection -/

theorem appPref_one_byte (p : TLVNode) (v : Nat) (h : p.getValue = [v]) :
    appPref (some p) = some v := by
  simp [appPref, h]

/-- What the selection loop leaves when it ends: the preference never goes
up, it is at most the preference of every candidate seen, and either nothing
was selected or the selected node is the AID of a template whose preference
is the final one. -/
theorem selectLoop_sound (ts : List TLVNode) :
    ∀ s s' : Selection, selectLoop ts s = some s' →
        s'.sel_app_pref ≤ s.sel_app_pref ∧
        (∀ t ∈ ts, ∀ aid v, t.findChild 0x4f = some aid →
          appPref (t.findChild 0x87) = some v → s'.sel_app_pref ≤ v) ∧
        (s' = s ∨ (s'.sel_app_pref < s.sel_app_pref ∧
          ∃ t ∈ ts, ∃ aid, t.findChild 0x4f = some aid ∧ s'.sel_aid_node = some aid ∧
            appPref (t.findChild 0x87) = some s'.sel_app_pref)) := by
  induction ts with
  | nil =>
    intro s s' h
    simp only [selectLoop, Option.some.injEq] at h
    subst h
    exact ⟨Nat.le_refl _, fun t ht => absurd ht (List.not_mem_nil t), Or.inl rfl⟩
  | cons t ts ih =>
    intro s s' h
    rcases haid : t.findChild 0x4f with _ | aid
    · simp only [selectLoop, haid] at h
      obtain ⟨h2, h3, h4⟩ := ih s s' h
      refine ⟨h2, ?_, ?_⟩
      · intro u hu a v ha hv
        rcases List.mem_cons.mp hu with rfl | hu'
        · rw [haid] at ha; exact Option.noConfusion ha
        · exact h3 u hu' a v ha hv
      · rcases h4 with h4 | ⟨h4, u, hu, a, ha, hs, hp⟩
        · exact Or.inl h4
        · exact Or.inr ⟨h4, u, List.mem_cons_of_mem _ hu, a, ha, hs, hp⟩
    · rcases hpref : appPref (t.findChild 0x87) with _ | v
      · simp [selectLoop, haid, hpref] at h
      · by_cases hlt : v < s.sel_app_pref
        · simp only [selectLoop, haid, hpref, hlt, if_true] at h
          obtain ⟨h2, h3, h4⟩ := ih ⟨v, some aid, t.findChild 0x50⟩ s' h
          simp only at h2
          refine ⟨by omega, ?_, Or.inr ?_⟩
          · intro u hu a w ha hw
            rcases List.mem_cons.mp hu with rfl | hu'
            · rw [hpref] at hw
              cases hw
              exact h2
            · exact h3 u hu' a w ha hw
          · rcases h4 with h4 | ⟨h4, u, hu, a, ha, hs, hp⟩
            · subst h4
              exact ⟨hlt, t, List.mem_cons_self _ _, aid, haid, rfl, hpref⟩
            · simp only at h4
              exact ⟨by omega, u, List.mem_cons_of_mem _ hu, a, ha, hs, hp⟩
        · simp only [selectLoop, haid, hpref, hlt, if_false] at h
          obtain ⟨h2, h3, h4⟩ := ih s s' h
          refine ⟨h2, ?_, ?_⟩
          · intro u hu a w ha hw
            rcases List.mem_cons.mp hu with rfl | hu'
            · rw [hpref] at hw
              cases hw
              omega
            · exact h3 u hu' a w ha hw
          · rcases h4 with h4 | ⟨h4, u, hu, a, ha, hs, hp⟩
            · exact Or.inl h4
            · exact Or.inr ⟨h4, u, List.mem_cons_of_mem _ hu, a, ha, hs, hp⟩

/-- The selection loop ends with a selection when every priority indicator
that comes with an AID can be read. -/
theorem selectLoop_defined (ts : List TLVNode) :
    ∀ s : Selection, PrioritiesReadable ts → ∃ s', selectLoop ts s = some s' := by
  induction ts with
  | nil => intro s _; exact ⟨s, rfl⟩
  | cons t ts ih =>
    intro s hwf
    have hwf' : PrioritiesReadable ts := fun u hu => hwf u (List.mem_cons_of_mem _ hu)
    rcases haid : t.findChild 0x4f with _ | aid
    · obtain ⟨s', h⟩ := ih s hwf'
      exact ⟨s', by simp [selectLoop, haid, h]⟩
    · rcases hpref : appPref (t.findChild 0x87) with _ | v
      · exact absurd hpref (hwf t (List.mem_cons_self _ _)
          (by rw [haid]; exact Option.some_ne_none _))
      · by_cases hlt : v < s.sel_app_pref
        · obtain ⟨s', h⟩ := ih ⟨v, some aid, t.findChild 0x50⟩ hwf'
          exact ⟨s', by simp [selectLoop, haid, hpref, hlt, h]⟩
        · obtain ⟨s', h⟩ := ih s hwf'
          exact ⟨s', by simp [selectLoop, haid, hpref, hlt, h]⟩

theorem priorities_readable_of_explicit (ts : List TLVNode)
    (hall : ∀ t ∈ ts, ∃ aid v, HasAidAndPriority t aid v) : PrioritiesReadable ts := by
  intro t ht _
  obtain ⟨aid, v, _, p, hp, hv⟩ := hall t ht
  rw [hp, appPref_one_byte p v hv]
  exact Option.some_ne_none _

/-- The result of `getPreferredAID` after a successful exchange, in terms of
the selection loop. -/
theorem getPreferredAID_of_response (decode : Decoder) (card : Card) (rx : List Nat)
    (hrx : card [discoveryApdu] = some rx) (hok : responseOk rx = true) :
    getPreferredAID decode card [] =
      (match selectLoop ((decode (payload rx)).findAll 0x61) ⟨99, none, none⟩ with
        | none => AidResult.badRead
        | some s =>
          match s.sel_aid_node with
          | none => AidResult.null
          | some aid => AidResult.node aid,
       [discoveryApdu]) := by
  simp only [getPreferredAID, List.nil_append, hrx, hok, selectPreferred]
  rcases selectLoop ((decode (payload rx)).findAll 0x61) ⟨99, none, none⟩ with _ | s
  · rfl
  · rcases h : s.sel_aid_node with _ | aid <;> simp [h]

/-- Selection when a priority below 99 is present: for a discovery response
in which every application template carries an AID and an explicit one-byte
priority indicator, and at least one priority value is below 99,
`getPreferredAID` returns the AID of a template whose priority value is the
lowest of all, whatever the order in which the templates appear in the
response. -/
theorem lowest_priority_selected_below_99 (decode : Decoder) (card : Card) (rx : List Nat)
    (ts : List TLVNode)
    (hrx : card [discoveryApdu] = some rx) (hok : responseOk rx = true)
    (horder : ((decode (payload rx)).findAll 0x61).Perm ts)
    (hall : ∀ t ∈ ts, ∃ aid v, HasAidAndPriority t aid v)
    (hlow : ∃ t ∈ ts, ∃ aid v, HasAidAndPriority t aid v ∧ v < 99) :
    ∃ t ∈ ts, ∃ aid v, HasAidAndPriority t aid v ∧
      (getPreferredAID decode card []).1 = .node aid ∧
      ∀ u ∈ ts, ∀ a w, HasAidAndPriority u a w → v ≤ w := by
  have hall' : ∀ t ∈ (decode (payload rx)).findAll 0x61, ∃ aid v, HasAidAndPriority t aid v :=
    fun t ht => hall t (horder.mem_iff.mp ht)
  obtain ⟨s', hs'⟩ := selectLoop_defined _ ⟨99, none, none⟩ (priorities_readable_of_explicit _ hall')
  obtain ⟨_, h3, h4⟩ := selectLoop_sound _ _ _ hs'
  obtain ⟨t0, ht0, a0, v0, ⟨ha0, p0, hp0, hv0⟩, hlt0⟩ := hlow
  have hle : s'.sel_app_pref ≤ v0 :=
    h3 t0 (horder.mem_iff.mpr ht0) a0 v0 ha0 (by rw [hp0, appPref_one_byte p0 v0 hv0])
  rcases h4 with h4 | ⟨_, t, ht, aid, haid, hsel, hpref⟩
  · rw [h4] at hle
    simp only at hle
    omega
  · obtain ⟨aid', v, ⟨haid', p, hp, hv⟩⟩ := hall' t ht
    have hv' : s'.sel_app_pref = v := by
      rw [hp, appPref_one_byte p v hv] at hpref
      exact (Option.some.inj hpref).symm
    refine ⟨t, horder.mem_iff.mp ht, aid, v, ⟨haid, p, hp, hv⟩, ?_, ?_⟩
    · rw [getPreferredAID_of_response decode card rx hrx hok, hs']
      simp [hsel]
    · intro u hu a w ⟨ha, q, hq, hw⟩
      rw [← hv']
      exact h3 u (horder.mem_iff.mpr hu) a w ha (by rw [hq, appPref_one_byte q w hw])

/-- Templates with priorities 3, 1, 2 in another order: the AID of the
template with priority 1 is returned. -/
theorem lowest_priority_selected_below_99_example :
    ∃ t ∈ [templateWithPriority [3] 3, templateWithPriority [1] 1, templateWithPriority [2] 2],
      ∃ aid v, HasAidAndPriority t aid v ∧
      (getPreferredAID
          (decoderOf []
            [templateWithPriority [2] 2, templateWithPriority [3] 3, templateWithPriority [1] 1])
          (cardAnswering [0x90, 0x00]) []).1 = .node aid ∧
      ∀ u ∈ [templateWithPriority [3] 3, templateWithPriority [1] 1, templateWithPriority [2] 2],
        ∀ a w, HasAidAndPriority u a w → v ≤ w :=
  lowest_priority_selected_below_99
    (decoderOf []
      [templateWithPriority [2] 2, templateWithPriority [3] 3, templateWithPriority [1] 1])
    (cardAnswering [0x90, 0x00]) [0x90, 0x00]
    [templateWithPriority [3] 3, templateWithPriority [1] 1, templateWithPriority [2] 2]
    rfl rfl
    (by
      have h : (decoderOf []
          [templateWithPriority [2] 2, templateWithPriority [3] 3, templateWithPriority [1] 1]
          (payload [0x90, 0x00])).findAll 0x61
          = [templateWithPriority [2] 2, templateWithPriority [3] 3, templateWithPriority [1] 1] :=
        rfl
      rw [h]
      exact @List.perm_append_comm _ [templateWithPriority [2] 2]
        [templateWithPriority [3] 3, templateWithPriority [1] 1])
    (by
      intro t ht
      simp only [List.mem_cons, List.mem_singleton, List.not_mem_nil, or_false] at ht
      rcases ht with rfl | rfl | rfl
      · exact ⟨.mk 0x4f [3] [], 3, rfl, .mk 0x87 [3] [], rfl, rfl⟩
      · exact ⟨.mk 0x4f [1] [], 1, rfl, .mk 0x87 [1] [], rfl, rfl⟩
      · exact ⟨.mk 0x4f [2] [], 2, rfl, .mk 0x87 [2] [], rfl, rfl⟩)
    ⟨templateWithPriority [1] 1, by simp, .mk 0x4f [1] [], 1,
      ⟨rfl, .mk 0x87 [1] [], rfl, rfl⟩, by decide⟩

/-- C5: the discovery response `61 0C 4F 07 A0000000031010 87 01 81 90 00`
holds one application template, with an AID and the one-byte priority
indicator 0x81 (priority 1, confirmation bit set); that template has the
lowest priority value and `getPreferredAID` returns `NULL` instead of its
AID, because `sel_app_pref` starts at 99 and only a smaller byte is taken.
Where a priority below 99 is present, the AID of a template with the lowest
priority value is returned whatever the order of the templates. -/
theorem C5_lowest_priority_missed :
    (∀ t ∈ [templateWithPriority aidVisa 0x81], ∃ aid v, HasAidAndPriority t aid v) ∧
    (getPreferredAID
      (decoderOf
        [0x61, 0x0C, 0x4F, 0x07, 0xA0, 0x00, 0x00, 0x00, 0x03, 0x10, 0x10, 0x87, 0x01, 0x81]
        [templateWithPriority aidVisa 0x81])
      (cardAnswering
        [0x61, 0x0C, 0x4F, 0x07, 0xA0, 0x00, 0x00, 0x00, 0x03, 0x10, 0x10, 0x87, 0x01, 0x81,
         0x90, 0x00])
      []).1 = .null ∧
    (∀ (decode : Decoder) (card : Card) (rx : List Nat) (ts : List TLVNode),
      card [discoveryApdu] = some rx → responseOk rx = true →
      ((decode (payload rx)).findAll 0x61).Perm ts →
      (∀ t ∈ ts, ∃ aid v, HasAidAndPriority t aid v) →
      (∃ t ∈ ts, ∃ aid v, HasAidAndPriority t aid v ∧ v < 99) →
      ∃ t ∈ ts, ∃ aid v, HasAidAndPriority t aid v ∧
        (getPreferredAID decode card []).1 = .node aid ∧
        ∀ u ∈ ts, ∀ a w, HasAidAndPriority u a w → v ≤ w) := by
  refine ⟨?_, rfl, ?_⟩
  · intro t ht
    rw [List.mem_singleton] at ht
    subst ht
    exact ⟨.mk 0x4f aidVisa [], 0x81, rfl, .mk 0x87 [0x81] [], rfl, rfl⟩
  · intro decode card rx ts hrx hok horder hall hlow
    exact lowest_priority_selected_below_99 decode card rx ts hrx hok horder hall hlow

/-- Selection when an explicit priority below 98 is present. When a
successful discovery response contains a template with an AID and an explicit
one-byte priority value below 98, every node `getPreferredAID` returns is the
AID of a template that carries a priority indicator, never that of a template
without one, wherever the templates stand in the response; and it does return
a node when every priority indicator of the response has at least one value
byte. -/
theorem explicit_below_98_beats_absent (decode : Decoder) (card : Card) (rx : List Nat)
    (hrx : card [discoveryApdu] = some rx) (hok : responseOk rx = true)
    (hexp : ∃ t ∈ (decode (payload rx)).findAll 0x61, ∃ aid v,
      HasAidAndPriority t aid v ∧ v < 98) :
    (∀ aid, (getPreferredAID decode card []).1 = .node aid →
      ∃ t ∈ (decode (payload rx)).findAll 0x61,
        t.findChild 0x4f = some aid ∧ t.findChild 0x87 ≠ none) ∧
    (PrioritiesReadable ((decode (payload rx)).findAll 0x61) →
      ∃ aid, (getPreferredAID decode card []).1 = .node aid) := by
  obtain ⟨t0, ht0, a0, v0, ⟨ha0, p0, hp0, hv0⟩, hlt0⟩ := hexp
  have key : ∀ s', selectLoop ((decode (payload rx)).findAll 0x61) ⟨99, none, none⟩ = some s' →
      ∃ t ∈ (decode (payload rx)).findAll 0x61, ∃ aid,
        t.findChild 0x4f = some aid ∧ s'.sel_aid_node = some aid ∧ t.findChild 0x87 ≠ none := by
    intro s' hs'
    obtain ⟨_, h3, h4⟩ := selectLoop_sound _ _ _ hs'
    have hle : s'.sel_app_pref ≤ v0 :=
      h3 t0 ht0 a0 v0 ha0 (by rw [hp0, appPref_one_byte p0 v0 hv0])
    rcases h4 with h4 | ⟨_, t, ht, aid, haid, hsel, hpref⟩
    · rw [h4] at hle
      simp only at hle
      omega
    · refine ⟨t, ht, aid, haid, hsel, ?_⟩
      intro hnone
      rw [hnone] at hpref
      simp only [appPref, Option.some.injEq] at hpref
      omega
  constructor
  · intro aid hres
    rw [getPreferredAID_of_response decode card rx hrx hok] at hres
    rcases hs : selectLoop ((decode (payload rx)).findAll 0x61) ⟨99, none, none⟩ with _ | s'
    · rw [hs] at hres
      exact AidResult.noConfusion hres
    · obtain ⟨t, ht, a, ha, hsel, hp⟩ := key s' hs
      rw [hs] at hres
      simp only [hsel, AidResult.node.injEq] at hres
      subst hres
      exact ⟨t, ht, ha, hp⟩
  · intro hwf
    obtain ⟨s', hs'⟩ := selectLoop_defined _ ⟨99, none, none⟩ hwf
    obtain ⟨t, _, a, _, hsel, _⟩ := key s' hs'
    refine ⟨a, ?_⟩
    rw [getPreferredAID_of_response decode card rx hrx hok, hs']
    simp [hsel]

/-- A template without priority indicator followed by one with priority 2:
the AID of the second is returned. -/
theorem explicit_below_98_beats_absent_example :
    (∀ aid, (getPreferredAID
        (decoderOf [] [templateWithoutPriority aidMastercard, templateWithPriority aidVisa 2])
        (cardAnswering [0x90, 0x00]) []).1 = .node aid →
      ∃ t ∈ ((decoderOf [] [templateWithoutPriority aidMastercard,
          templateWithPriority aidVisa 2]) (payload [0x90, 0x00])).findAll 0x61,
        t.findChild 0x4f = some aid ∧ t.findChild 0x87 ≠ none) ∧
    (PrioritiesReadable (((decoderOf [] [templateWithoutPriority aidMastercard,
          templateWithPriority aidVisa 2]) (payload [0x90, 0x00])).findAll 0x61) →
      ∃ aid, (getPreferredAID
        (decoderOf [] [templateWithoutPriority aidMastercard, templateWithPriority aidVisa 2])
        (cardAnswering [0x90, 0x00]) []).1 = .node aid) :=
  explicit_below_98_beats_absent
    (decoderOf [] [templateWithoutPriority aidMastercard, templateWithPriority aidVisa 2])
    (cardAnswering [0x90, 0x00]) [0x90, 0x00] rfl rfl
    ⟨templateWithPriority aidVisa 2, List.mem_cons_of_mem _ (List.mem_cons_self _ _),
      .mk 0x4f aidVisa [], 2, ⟨rfl, .mk 0x87 [2] [], rfl, rfl⟩, by decide⟩

/-- C6: in the discovery response `61 0C 4F 07 A0000000031010 87 01 81
61 09 4F 07 A0000000041010 90 00` the first template has the explicit
priority indicator 0x81 and the second has none; `getPreferredAID` returns the
AID of the second, the template without priority indicator, in this order and
in the other: a missing indicator counts as 98 and the whole priority byte is
compared with it. Where the explicit priority byte is below 98, every node
returned is the AID of a template that carries a priority indicator. -/
theorem C6_explicit_loses_to_absent :
    (getPreferredAID
      (decoderOf
        [0x61, 0x0C, 0x4F, 0x07, 0xA0, 0x00, 0x00, 0x00, 0x03, 0x10, 0x10, 0x87, 0x01, 0x81,
         0x61, 0x09, 0x4F, 0x07, 0xA0, 0x00, 0x00, 0x00, 0x04, 0x10, 0x10]
        [templateWithPriority aidVisa 0x81, templateWithoutPriority aidMastercard])
      (cardAnswering
        [0x61, 0x0C, 0x4F, 0x07, 0xA0, 0x00, 0x00, 0x00, 0x03, 0x10, 0x10, 0x87, 0x01, 0x81,
         0x61, 0x09, 0x4F, 0x07, 0xA0, 0x00, 0x00, 0x00, 0x04, 0x10, 0x10, 0x90, 0x00])
      []).1 = .node (.mk 0x4f aidMastercard []) ∧
    (getPreferredAID
      (decoderOf
        [0x61, 0x09, 0x4F, 0x07, 0xA0, 0x00, 0x00, 0x00, 0x04, 0x10, 0x10,
         0x61, 0x0C, 0x4F, 0x07, 0xA0, 0x00, 0x00, 0x00, 0x03, 0x10, 0x10, 0x87, 0x01, 0x81]
        [templateWithoutPriority aidMastercard, templateWithPriority aidVisa 0x81])
      (cardAnswering
        [0x61, 0x09, 0x4F, 0x07, 0xA0, 0x00, 0x00, 0x00, 0x04, 0x10, 0x10,
         0x61, 0x0C, 0x4F, 0x07, 0xA0, 0x00, 0x00, 0x00, 0x03, 0x10, 0x10, 0x87, 0x01, 0x81,
         0x90, 0x00])
      []).1 = .node (.mk 0x4f aidMastercard []) ∧
    (templateWithoutPriority aidMastercard).findChild 0x87 = none ∧
    HasAidAndPriority (templateWithPriority aidVisa 0x81) (.mk 0x4f aidVisa []) 0x81 ∧
    (∀ (decode : Decoder) (card : Card) (rx : List Nat),
      card [discoveryApdu] = some rx → responseOk rx = true →
      (∃ t ∈ (decode (payload rx)).findAll 0x61, ∃ aid v,
        HasAidAndPriority t aid v ∧ v < 98) →
      (∀ aid, (getPreferredAID decode card []).1 = .node aid →
        ∃ t ∈ (decode (payload rx)).findAll 0x61,
          t.findChild 0x4f = some aid ∧ t.findChild 0x87 ≠ none) ∧
      (PrioritiesReadable ((decode (payload rx)).findAll 0x61) →
        ∃ aid, (getPreferredAID decode card []).1 = .node aid)) :=
  ⟨rfl, rfl, rfl, ⟨rfl, .mk 0x87 [0x81] [], rfl, rfl⟩,
    fun decode card rx hrx hok hexp => explicit_below_98_beats_absent decode card rx hrx hok hexp⟩

/-- When a candidate is returned. After a successful discovery exchange
`getPreferredAID` returns `NULL` when no application template contains an
AID; and, when every priority indicator that comes with an AID has at least
one value byte, it returns a candidate exactly when some template contains an
AID and has either no priority indicator or a priority value below 99, and
`NULL` otherwise. -/
theorem candidate_exists_iff (decode : Decoder) (card : Card) (rx : List Nat)
    (hrx : card [discoveryApdu] = some rx) (hok : responseOk rx = true) :
    ((∀ t ∈ (decode (payload rx)).findAll 0x61, t.findChild 0x4f = none) →
      (getPreferredAID decode card []).1 = .null) ∧
    (PrioritiesReadable ((decode (payload rx)).findAll 0x61) →
      ((∃ aid, (getPreferredAID decode card []).1 = .node aid) ↔
        ∃ t ∈ (decode (payload rx)).findAll 0x61, ∃ v, candidatePref t = some v ∧ v < 99) ∧
      ((¬ ∃ t ∈ (decode (payload rx)).findAll 0x61, ∃ v, candidatePref t = some v ∧ v < 99) →
        (getPreferredAID decode card []).1 = .null)) := by
  have hcand : ∀ (t : TLVNode) (aid : TLVNode) (v : Nat), t.findChild 0x4f = some aid →
      appPref (t.findChild 0x87) = some v → candidatePref t = some v := by
    intro t aid v ha hv
    simp [candidatePref, ha, hv]
  have main : PrioritiesReadable ((decode (payload rx)).findAll 0x61) →
      ((∃ aid, (getPreferredAID decode card []).1 = .node aid) ↔
        ∃ t ∈ (decode (payload rx)).findAll 0x61, ∃ v, candidatePref t = some v ∧ v < 99) ∧
      ((¬ ∃ t ∈ (decode (payload rx)).findAll 0x61, ∃ v, candidatePref t = some v ∧ v < 99) →
        (getPreferredAID decode card []).1 = .null) := by
    intro hwf
    obtain ⟨s', hs'⟩ := selectLoop_defined _ ⟨99, none, none⟩ hwf
    obtain ⟨_, h3, h4⟩ := selectLoop_sound _ _ _ hs'
    have hres : (getPreferredAID decode card []).1 =
        (match s'.sel_aid_node with
          | none => AidResult.null
          | some aid => AidResult.node aid) := by
      rw [getPreferredAID_of_response decode card rx hrx hok, hs']
    have hiff : (∃ aid, (getPreferredAID decode card []).1 = .node aid) ↔
        ∃ t ∈ (decode (payload rx)).findAll 0x61, ∃ v, candidatePref t = some v ∧ v < 99 := by
      constructor
      · rintro ⟨aid, haid⟩
        rcases h4 with h4 | ⟨hlt, t, ht, a, ha, _, hp⟩
        · rw [hres, h4] at haid
          exact AidResult.noConfusion haid
        · exact ⟨t, ht, s'.sel_app_pref, hcand t a _ ha hp, hlt⟩
      · rintro ⟨t, ht, v, hv, hlt⟩
        rcases ha : t.findChild 0x4f with _ | a
        · simp [candidatePref, ha] at hv
        · simp only [candidatePref, ha] at hv
          have hle := h3 t ht a v ha hv
          rcases h4 with h4 | ⟨_, _, _, a', _, hsel, _⟩
          · rw [h4] at hle
            simp only at hle
            omega
          · exact ⟨a', by rw [hres, hsel]⟩
    refine ⟨hiff, ?_⟩
    intro hno
    rcases hsel : s'.sel_aid_node with _ | aid
    · rw [hres, hsel]
    · exact absurd (hiff.mp ⟨aid, by rw [hres, hsel]⟩) hno
  refine ⟨?_, main⟩
  intro hnone
  have hwf : PrioritiesReadable ((decode (payload rx)).findAll 0x61) :=
    fun t ht h => absurd (hnone t ht) h
  refine (main hwf).2 ?_
  rintro ⟨t, ht, v, hv, _⟩
  simp [candidatePref, hnone t ht] at hv

/-- One template with an AID and no priority indicator. -/
theorem candidate_exists_iff_example :
    ((∀ t ∈ ((decoderOf [] [templateWithoutPriority aidVisa])
        (payload [0x90, 0x00])).findAll 0x61, t.findChild 0x4f = none) →
      (getPreferredAID (decoderOf [] [templateWithoutPriority aidVisa])
        (cardAnswering [0x90, 0x00]) []).1 = .null) ∧
    (PrioritiesReadable (((decoderOf [] [templateWithoutPriority aidVisa])
        (payload [0x90, 0x00])).findAll 0x61) →
      ((∃ aid, (getPreferredAID (decoderOf [] [templateWithoutPriority aidVisa])
          (cardAnswering [0x90, 0x00]) []).1 = .node aid) ↔
        ∃ t ∈ ((decoderOf [] [templateWithoutPriority aidVisa])
          (payload [0x90, 0x00])).findAll 0x61, ∃ v, candidatePref t = some v ∧ v < 99) ∧
      ((¬ ∃ t ∈ ((decoderOf [] [templateWithoutPriority aidVisa])
          (payload [0x90, 0x00])).findAll 0x61, ∃ v, candidatePref t = some v ∧ v < 99) →
        (getPreferredAID (decoderOf [] [templateWithoutPriority aidVisa])
          (cardAnswering [0x90, 0x00]) []).1 = .null)) :=
  candidate_exists_iff (decoderOf [] [templateWithoutPriority aidVisa])
    (cardAnswering [0x90, 0x00]) [0x90, 0x00] rfl rfl

/-- C7: in the successful discovery response `61 0C 4F 07 A0000000031010
87 01 81 61 0C 4F 07 A0000000041010 87 01 82 90 00` both templates contain an
AID (priority indicators 0x81 and 0x82) and `getPreferredAID` returns `NULL`,
so step 1 does not advance although candidates exist: `sel_app_pref` starts
at 99 and only a smaller priority byte is taken. The other half holds: when
no template contains an AID the result is `NULL`; and a candidate is returned
whenever some template with an AID has no priority indicator or a priority
byte below 99. -/
theorem C7_candidates_ignored :
    (∀ t ∈ [templateWithPriority aidVisa 0x81, templateWithPriority aidMastercard 0x82],
      t.findChild 0x4f ≠ none) ∧
    (getPreferredAID
      (decoderOf
        [0x61, 0x0C, 0x4F, 0x07, 0xA0, 0x00, 0x00, 0x00, 0x03, 0x10, 0x10, 0x87, 0x01, 0x81,
         0x61, 0x0C, 0x4F, 0x07, 0xA0, 0x00, 0x00, 0x00, 0x04, 0x10, 0x10, 0x87, 0x01, 0x82]
        [templateWithPriority aidVisa 0x81, templateWithPriority aidMastercard 0x82])
      (cardAnswering
        [0x61, 0x0C, 0x4F, 0x07, 0xA0, 0x00, 0x00, 0x00, 0x03, 0x10, 0x10, 0x87, 0x01, 0x81,
         0x61, 0x0C, 0x4F, 0x07, 0xA0, 0x00, 0x00, 0x00, 0x04, 0x10, 0x10, 0x87, 0x01, 0x82,
         0x90, 0x00])
      []).1 = .null ∧
    (∀ (decode : Decoder) (card : Card) (rx : List Nat),
      card [discoveryApdu] = some rx → responseOk rx = true →
      ((∀ t ∈ (decode (payload rx)).findAll 0x61, t.findChild 0x4f = none) →
        (getPreferredAID decode card []).1 = .null) ∧
      (PrioritiesReadable ((decode (payload rx)).findAll 0x61) →
        ((∃ aid, (getPreferredAID decode card []).1 = .node aid) ↔
          ∃ t ∈ (decode (payload rx)).findAll 0x61, ∃ v, candidatePref t = some v ∧ v < 99) ∧
        ((¬ ∃ t ∈ (decode (payload rx)).findAll 0x61, ∃ v, candidatePref t = some v ∧ v < 99) →
          (getPreferredAID decode card []).1 = .null))) := by
  refine ⟨?_, rfl, fun decode card rx hrx hok => candidate_exists_iff decode card rx hrx hok⟩
  intro t ht
  simp only [List.mem_cons, List.mem_singleton, List.not_mem_nil, or_false] at ht
  rcases ht with rfl | rfl
  · exact fun h => Option.noConfusion (h : some (TLVNode.mk 0x4f aidVisa []) = none)
  · exact fun h => Option.noConfusion (h : some (TLVNode.mk 0x4f aidMastercard []) = none)

/-! ## Status check -/

/-- C8: `checkApduResponse` returns true exactly when the length is at least
2 and the two trailing bytes are 0x90 then 0x00; a response of length 0 or 1
is rejected and no byte of it is read; the bytes read are the two trailing
ones at most; a continuation status such as 0x61xx is rejected. -/
theorem C8_checkApduResponse_iff (rx_buffer : Nat → Nat) (length : Nat) :
    ((checkApduResponse rx_buffer length).ok = true ↔
      2 ≤ length ∧ rx_buffer (length - 2) = 0x90 ∧ rx_buffer (length - 1) = 0x00) ∧
    checkApduResponse rx_buffer 0 = ⟨false, []⟩ ∧
    checkApduResponse rx_buffer 1 = ⟨false, []⟩ ∧
    (checkApduResponse rx_buffer length).reads <+: [length - 2, length - 1] ∧
    ∀ sw2 : Nat, (checkApduResponse (rxMemory [0x61, sw2]) 2).ok = false := by
  refine ⟨?_, by simp [checkApduResponse], by simp [checkApduResponse], ?_, ?_⟩
  · unfold checkApduResponse
    by_cases h1 : length < 2
    · simp only [h1, if_true]
      constructor
      · intro h; exact absurd h (by decide)
      · intro h; omega
    · by_cases h2 : rx_buffer (length - 2) = 0x90
      · by_cases h3 : rx_buffer (length - 1) = 0x00
        · simp [h1, h2, h3]
          omega
        · simp [h1, h2, h3]
      · simp [h1, h2]
  · unfold checkApduResponse
    by_cases h1 : length < 2
    · simp [h1]
    · by_cases h2 : rx_buffer (length - 2) = 0x90
      · by_cases h3 : rx_buffer (length - 1) = 0x00
        · simp [h1, h2, h3]
        · simp [h1, h2, h3]
      · simp only [h1, h2, if_false, ne_eq, not_false_eq_true, if_true]
        exact ⟨[length - 1], rfl⟩
  · intro sw2
    simp [checkApduResponse, rxMemory]

/-! ## Record reading -/

theorem readAppRecordsLoop_step (decode : Decoder) (card : Card) (sfi end_ fuel record : Nat)
    (sent : List (List Nat)) (h : record ≤ end_) :
    readAppRecordsLoop decode card sfi end_ (fuel + 1) record sent
      = readAppRecordsLoop decode card sfi end_ fuel ((record + 1) % 256)
          (sent ++ [readRecordApdu sfi record]) := by
  simp only [readAppRecordsLoop, if_pos h]
  rcases card (sent ++ [readRecordApdu sfi record]) with _ | rx
  · rfl
  · simp only
    split <;> rfl

/-- With `end = 255` the condition `record <= end` holds for every value of
the `uint8_t` counter: whatever the budget, the loop uses it up, sending one
READ RECORD per iteration. -/
theorem readAppRecordsLoop_last_255 (decode : Decoder) (card : Card) (sfi : Nat) (fuel : Nat) :
    ∀ (record : Nat) (sent : List (List Nat)), record ≤ 255 →
      (readAppRecordsLoop decode card sfi 255 fuel record sent).finished = false ∧
      (readAppRecordsLoop decode card sfi 255 fuel record sent).sent.length
        = sent.length + fuel := by
  induction fuel with
  | zero => intro record sent _; simp [readAppRecordsLoop]
  | succ fuel ih =>
    intro record sent h
    rw [readAppRecordsLoop_step decode card sfi 255 fuel record sent h]
    obtain ⟨h1, h2⟩ := ih ((record + 1) % 256) (sent ++ [readRecordApdu sfi record]) (by omega)
    refine ⟨h1, ?_⟩
    rw [h2]
    simp only [List.length_append, List.length_singleton]
    omega

/-- With `end` below 255 the loop ends: from `record`, with `k` records left
up to `end`, it sends `k` commands and stops, given a budget above `k`. -/
theorem readAppRecordsLoop_ends (decode : Decoder) (card : Card) (sfi end_ : Nat)
    (hend : end_ ≤ 254) (k : Nat) :
    ∀ (fuel record : Nat) (sent : List (List Nat)), record + k = end_ + 1 → k < fuel →
      (readAppRecordsLoop decode card sfi end_ fuel record sent).finished = true ∧
      (readAppRecordsLoop decode card sfi end_ fuel record sent).sent.length
        = sent.length + k := by
  induction k with
  | zero =>
    intro fuel record sent hk hf
    obtain ⟨f, rfl⟩ : ∃ f, fuel = f + 1 := ⟨fuel - 1, by omega⟩
    have hgt : ¬ record ≤ end_ := by omega
    simp [readAppRecordsLoop, hgt]
  | succ k ih =>
    intro fuel record sent hk hf
    obtain ⟨f, rfl⟩ : ∃ f, fuel = f + 1 := ⟨fuel - 1, by omega⟩
    rw [readAppRecordsLoop_step decode card sfi end_ f record sent (by omega)]
    have hmod : (record + 1) % 256 = record + 1 := Nat.mod_eq_of_lt (by omega)
    rw [hmod]
    obtain ⟨h1, h2⟩ := ih f (record + 1) (sent ++ [readRecordApdu sfi record]) (by omega)
      (by omega)
    refine ⟨h1, ?_⟩
    rw [h2]
    simp only [List.length_append, List.length_singleton]
    omega

/-- C9: with the AFL `08 01 FF 00` (last record 255) the record loop of
`readAppRecords` never ends: whatever the iteration budget, the tap cycle is
still in the loop when the budget is used up and it has sent one READ RECORD
command per iteration, after the three commands of steps 1-3. -/
theorem C9_last_record_255_never_ends (fuel : Nat) :
    (loop last255Decoder last255Card true fuel).outcome = .unfinished ∧
    (loop last255Decoder last255Card true fuel).sent.length = 3 + fuel := by
  have h1 : getPreferredAID last255Decoder last255Card []
      = (.node (.mk 0x4f aidVisa []), [discoveryApdu]) := rfl
  have h2 : selectApplicationID last255Decoder last255Card (.mk 0x4f aidVisa []) [discoveryApdu]
      = (true, none, [discoveryApdu, selectApdu (.mk 0x4f aidVisa [])]) := rfl
  have h3 : getProcessingOptions last255Decoder last255Card none
        [discoveryApdu, selectApdu (.mk 0x4f aidVisa [])]
      = (.node (.mk 0x94 [0x08, 0x01, 0xFF, 0x00] []),
          [discoveryApdu, selectApdu (.mk 0x4f aidVisa []), gpoApdu dataBuffer]) := rfl
  have h4 := readAppRecordsLoop_last_255 last255Decoder last255Card 1 fuel 1
    [discoveryApdu, selectApdu (.mk 0x4f aidVisa []), gpoApdu dataBuffer] (by decide)
  have h5 : aflLoop last255Decoder last255Card fuel 5 ⟨[0x08, 0x01, 0xFF, 0x00], 0⟩
      [discoveryApdu, selectApdu (.mk 0x4f aidVisa []), gpoApdu dataBuffer]
      = readAppRecordsLoop last255Decoder last255Card 1 255 fuel 1
          [discoveryApdu, selectApdu (.mk 0x4f aidVisa []), gpoApdu dataBuffer] := by
    simp [aflLoop, ReadBuffer.atEnd, ReadBuffer.getByte, readAppRecords, h4.1]
  have h6 : loop last255Decoder last255Card true fuel
      = ⟨(readAppRecordsLoop last255Decoder last255Card 1 255 fuel 1
          [discoveryApdu, selectApdu (.mk 0x4f aidVisa []), gpoApdu dataBuffer]).sent,
          .unfinished⟩ := by
    simp only [loop, h1, h2, h3, TLVNode.getValueLength, TLVNode.getValue, List.length_cons,
      List.length_nil, h5, h4.1]
    simp
  rw [h6]
  refine ⟨rfl, ?_⟩
  simp only [h4.2, List.length_cons, List.length_nil]

/-! ## The tap cycle -/

/-- C10: steps 1-3 of a tap cycle are fail-fast. When the discovery exchange
fails, has a non-success status or yields no candidate, the discovery command
is the only command sent. When SELECT fails or has an error status, the
discovery and SELECT commands are the only ones sent. When DOL resolution
fails, only those two are sent; when the GET PROCESSING OPTIONS exchange
fails, has an error status or its response has no AFL (tag 94), the three
commands of steps 1-3 are the only ones sent: no READ RECORD follows. -/
theorem C10_fail_fast (decode : Decoder) (card : Card) (fuel : Nat) :
    ((card [discoveryApdu] = none ∨
        ∃ rx, card [discoveryApdu] = some rx ∧
          (responseOk rx = false ∨
            ∃ s, selectPreferred (decode (payload rx)) = some s ∧ s.sel_aid_node = none)) →
      (loop decode card true fuel).sent = [discoveryApdu] ∧
      (loop decode card true fuel).outcome = .noAid) ∧
    (∀ aid, (getPreferredAID decode card []).1 = .node aid →
      ((card [discoveryApdu, selectApdu aid] = none ∨
          ∃ rx, card [discoveryApdu, selectApdu aid] = some rx ∧ responseOk rx = false) →
        (loop decode card true fuel).sent = [discoveryApdu, selectApdu aid] ∧
        (loop decode card true fuel).outcome = .selectFailed) ∧
      (∀ rx, card [discoveryApdu, selectApdu aid] = some rx → responseOk rx = true →
        (∀ out, buildDataOptionsList (((decode (payload rx)).findTLV 0x9f38).map Prod.fst)
            dataBuffer = .returned false out →
          (loop decode card true fuel).sent = [discoveryApdu, selectApdu aid] ∧
          (loop decode card true fuel).outcome = .noAppFiles) ∧
        (∀ out, buildDataOptionsList (((decode (payload rx)).findTLV 0x9f38).map Prod.fst)
            dataBuffer = .returned true out →
          (card [discoveryApdu, selectApdu aid, gpoApdu out] = none ∨
            ∃ rx3, card [discoveryApdu, selectApdu aid, gpoApdu out] = some rx3 ∧
              (responseOk rx3 = false ∨ (decode (payload rx3)).findTLV 0x94 = none)) →
          (loop decode card true fuel).sent = [discoveryApdu, selectApdu aid, gpoApdu out] ∧
          (loop decode card true fuel).outcome = .noAppFiles))) := by
  have hsent : ∀ r, getPreferredAID decode card [] = r → r.2 = [discoveryApdu] := by
    intro r hr
    rw [← hr]
    simp only [getPreferredAID, List.nil_append]
    rcases card [discoveryApdu] with _ | rx
    · rfl
    · simp only
      split
      · rfl
      · rcases selectPreferred (decode (payload rx)) with _ | s
        · rfl
        · simp only
          rcases s.sel_aid_node with _ | a <;> rfl
  constructor
  · intro h
    have hnull : getPreferredAID decode card [] = (.null, [discoveryApdu]) := by
      simp only [getPreferredAID, List.nil_append]
      rcases h with h | ⟨rx, hrx, h | ⟨s, hs, hnone⟩⟩
      · rw [h]
      · rw [hrx]; simp [h]
      · rw [hrx]
        simp only [hs, hnone]
        split <;> rfl
    simp [loop, hnull]
  · intro aid haid
    have h1 : getPreferredAID decode card [] = (.node aid, [discoveryApdu]) := by
      have := hsent _ rfl
      exact Prod.ext haid this
    constructor
    · intro h
      have h2 : selectApplicationID decode card aid [discoveryApdu]
          = (false, none, [discoveryApdu, selectApdu aid]) := by
        simp only [selectApplicationID, List.cons_append, List.nil_append]
        rcases h with h | ⟨rx, hrx, h⟩
        · rw [h]
        · rw [hrx]; simp [h]
      simp [loop, h1, h2]
    · intro rx hrx hok
      have h2 : selectApplicationID decode card aid [discoveryApdu]
          = (true, ((decode (payload rx)).findTLV 0x9f38).map Prod.fst,
              [discoveryApdu, selectApdu aid]) := by
        simp [selectApplicationID, hrx, hok]
      constructor
      · intro out hb
        have h3 : getProcessingOptions decode card
            (((decode (payload rx)).findTLV 0x9f38).map Prod.fst)
            [discoveryApdu, selectApdu aid] = (.null, [discoveryApdu, selectApdu aid]) := by
          simp [getProcessingOptions, hb]
        simp [loop, h1, h2, h3]
      · intro out hb h
        have h3 : getProcessingOptions decode card
            (((decode (payload rx)).findTLV 0x9f38).map Prod.fst)
            [discoveryApdu, selectApdu aid]
            = (.null, [discoveryApdu, selectApdu aid, gpoApdu out]) := by
          simp only [getProcessingOptions, hb, List.cons_append, List.nil_append]
          rcases h with h | ⟨rx3, hrx3, h | h⟩
          · rw [h]
          · rw [hrx3]; simp [h]
          · rw [hrx3]
            simp only [h]
            split <;> rfl
        simp [loop, h1, h2, h3]

/-- Witness for C10: a card whose every exchange fails; a card that answers
the discovery command with the error status `6A 82`; a card that answers the
discovery command and then fails on SELECT; a card that answers discovery and
SELECT and then fails on GET PROCESSING OPTIONS. -/
theorem C10_fail_fast_witness :
    ((loop (decoderOf [] []) (fun _ => none) true 300).sent = [discoveryApdu] ∧
      (loop (decoderOf [] []) (fun _ => none) true 300).outcome = .noAid) ∧
    ((loop (decoderOf [] []) (cardAnswering [0x6A, 0x82]) true 300).sent = [discoveryApdu] ∧
      (loop (decoderOf [] []) (cardAnswering [0x6A, 0x82]) true 300).outcome = .noAid) ∧
    ((loop last255Decoder (scriptedCard [discoveryPayload ++ [0x90, 0x00]] none) true 300).sent
        = [discoveryApdu, selectApdu (.mk 0x4f aidVisa [])] ∧
      (loop last255Decoder (scriptedCard [discoveryPayload ++ [0x90, 0x00]] none) true 300).outcome
        = .selectFailed) ∧
    ((loop last255Decoder
        (scriptedCard [discoveryPayload ++ [0x90, 0x00], selectPayload ++ [0x90, 0x00]] none)
        true 300).sent
        = [discoveryApdu, selectApdu (.mk 0x4f aidVisa []), gpoApdu dataBuffer] ∧
      (loop last255Decoder
        (scriptedCard [discoveryPayload ++ [0x90, 0x00], selectPayload ++ [0x90, 0x00]] none)
        true 300).outcome = .noAppFiles) :=
  ⟨(C10_fail_fast (decoderOf [] []) (fun _ => none) 300).1 (Or.inl rfl),
   (C10_fail_fast (decoderOf [] []) (cardAnswering [0x6A, 0x82]) 300).1
     (Or.inr ⟨[0x6A, 0x82], rfl, Or.inl rfl⟩),
   ((C10_fail_fast last255Decoder (scriptedCard [discoveryPayload ++ [0x90, 0x00]] none) 300).2
     (.mk 0x4f aidVisa []) (by rfl)).1 (Or.inl (by rfl)),
   (((C10_fail_fast last255Decoder
       (scriptedCard [discoveryPayload ++ [0x90, 0x00], selectPayload ++ [0x90, 0x00]] none)
       300).2 (.mk 0x4f aidVisa []) (by rfl)).2 (selectPayload ++ [0x90, 0x00])
       (by rfl) (by rfl)).2
     dataBuffer (by rfl) (Or.inl (by rfl))⟩

/-! ## The AFL loop -/

theorem aflLoop_atEnd (decode : Decoder) (card : Card) (fuel n : Nat) (buf : List Nat) (p : Nat)
    (sent : List (List Nat)) (h : buf.drop p = []) :
    aflLoop decode card fuel (n + 1) ⟨buf, p⟩ sent = ⟨sent, true⟩ := by
  have h' : (⟨buf, p⟩ : ReadBuffer).buffer.drop (⟨buf, p⟩ : ReadBuffer).pos = [] := h
  simp [aflLoop, atEnd_of_drop_nil h']

/-- The AFL loop of `loop` computes `runAfl` on the unread bytes as soon as
its budget exceeds their number. -/
theorem aflLoop_eq_runAfl (decode : Decoder) (card : Card) (fuel : Nat) (n : Nat) :
    ∀ (buf : List Nat) (p : Nat) (sent : List (List Nat)), (buf.drop p).length < n →
      aflLoop decode card fuel n ⟨buf, p⟩ sent = runAfl decode card fuel (buf.drop p) sent := by
  induction n with
  | zero => intro buf p sent h; exact absurd h (Nat.not_lt_zero _)
  | succ n ih =>
    intro buf p sent h
    rcases hd : buf.drop p with _ | ⟨b0, t0⟩
    · rw [aflLoop_atEnd decode card fuel n buf p sent hd]
      simp [runAfl]
    · have hd' : (⟨buf, p⟩ : ReadBuffer).buffer.drop (⟨buf, p⟩ : ReadBuffer).pos = b0 :: t0 := hd
      have g0 := getByte_of_drop_cons hd'
      have h1 := (drop_cons_inv hd).2
      rw [hd] at h
      simp only [List.length_cons] at h
      obtain ⟨m, rfl⟩ : ∃ m, n = m + 1 := ⟨n - 1, by omega⟩
      rcases t0 with _ | ⟨b1, t1⟩
      · have h1' : (⟨buf, p + 1⟩ : ReadBuffer).buffer.drop (⟨buf, p + 1⟩ : ReadBuffer).pos = [] :=
          h1
        have g1 := getByte_of_drop_nil h1'
        have e := aflLoop_atEnd decode card fuel m buf (p + 1) sent h1
        simp [aflLoop, atEnd_of_drop_cons hd', g0, g1, runAfl, atEnd_of_drop_nil h1']
      · have h1' : (⟨buf, p + 1⟩ : ReadBuffer).buffer.drop (⟨buf, p + 1⟩ : ReadBuffer).pos
            = b1 :: t1 := h1
        have g1 := getByte_of_drop_cons h1'
        have h2 := (drop_cons_inv h1).2
        rcases t1 with _ | ⟨b2, t2⟩
        · have h2' : (⟨buf, p + 1 + 1⟩ : ReadBuffer).buffer.drop
              (⟨buf, p + 1 + 1⟩ : ReadBuffer).pos = [] := h2
          have g2 := getByte_of_drop_nil h2'
          simp [aflLoop, atEnd_of_drop_cons hd', g0, g1, g2, runAfl, atEnd_of_drop_nil h2']
        · have h2' : (⟨buf, p + 1 + 1⟩ : ReadBuffer).buffer.drop
              (⟨buf, p + 1 + 1⟩ : ReadBuffer).pos = b2 :: t2 := h2
          have g2 := getByte_of_drop_cons h2'
          have h3 := (drop_cons_inv h2).2
          rcases t2 with _ | ⟨b3, t3⟩
          · have h3' : (⟨buf, p + 1 + 1 + 1⟩ : ReadBuffer).buffer.drop
                (⟨buf, p + 1 + 1 + 1⟩ : ReadBuffer).pos = [] := h3
            have g3 := getByte_of_drop_nil h3'
            simp [aflLoop, atEnd_of_drop_cons hd', g0, g1, g2, g3, runAfl,
              atEnd_of_drop_nil h3']
          · have h3' : (⟨buf, p + 1 + 1 + 1⟩ : ReadBuffer).buffer.drop
                (⟨buf, p + 1 + 1 + 1⟩ : ReadBuffer).pos = b3 :: t3 := h3
            have g3 := getByte_of_drop_cons h3'
            have h4 := (drop_cons_inv h3).2
            simp only [List.length_cons] at h
            have ih0 : ∀ s, aflLoop decode card fuel (m + 1) ⟨buf, p + 1 + 1 + 1 + 1⟩ s
                = runAfl decode card fuel t3 s := fun s => by
              have := ih buf (p + 1 + 1 + 1 + 1) s (by rw [h4]; omega)
              rwa [h4] at this
            rw [aflLoop]
            simp only [atEnd_of_drop_cons hd', g0, g1, g2, g3, runAfl, ih0, if_false,
              Bool.false_eq_true]

/-- The AFL loop as `loop` starts it, on the whole AFL. -/
theorem aflLoop_start (decode : Decoder) (card : Card) (fuel : Nat) (afl : List Nat)
    (sent : List (List Nat)) :
    aflLoop decode card fuel (afl.length + 1) ⟨afl, 0⟩ sent = runAfl decode card fuel afl sent := by
  have h := aflLoop_eq_runAfl decode card fuel (afl.length + 1) afl 0 sent (by simp)
  simpa using h

/-- The record loop sends `recordCommands`, whatever the card answers. -/
theorem readAppRecordsLoop_eq_commands (decode : Decoder) (card : Card) (sfi end_ : Nat)
    (fuel : Nat) :
    ∀ (record : Nat) (sent : List (List Nat)),
      readAppRecordsLoop decode card sfi end_ fuel record sent
        = ⟨sent ++ (recordCommands sfi end_ fuel record).1,
            (recordCommands sfi end_ fuel record).2⟩ := by
  induction fuel with
  | zero => intro record sent; simp [readAppRecordsLoop, recordCommands]
  | succ fuel ih =>
    intro record sent
    by_cases h : record ≤ end_
    · rw [readAppRecordsLoop_step decode card sfi end_ fuel record sent h, ih]
      simp [recordCommands, h]
    · simp [readAppRecordsLoop, recordCommands, h]

/-- Step 4 sends `aflCommands`, whatever the card answers. -/
theorem runAfl_eq_commands (decode : Decoder) (card : Card) (fuel : Nat) :
    ∀ (afl : List Nat) (sent : List (List Nat)),
      runAfl decode card fuel afl sent
        = ⟨sent ++ (aflCommands fuel afl).1, (aflCommands fuel afl).2⟩
  | [], sent => by simp [runAfl, aflCommands]
  | [_], sent => by simp [runAfl, aflCommands]
  | [_, _], sent => by simp [runAfl, aflCommands]
  | [_, _, _], sent => by simp [runAfl, aflCommands]
  | b0 :: b1 :: b2 :: b3 :: rest, sent => by
    have ih := runAfl_eq_commands decode card fuel rest
    simp only [runAfl, aflCommands, readAppRecords, readAppRecordsLoop_eq_commands]
    by_cases h : (recordCommands (b0 >>> 3) b2 fuel b1).2 = true
    · simp [h, ih]
    · simp [h]

theorem runAfl_group (decode : Decoder) (card : Card) (fuel : Nat) (b0 b1 b2 b3 : Nat)
    (rest : List Nat) (sent : List (List Nat)) :
    runAfl decode card fuel (b0 :: b1 :: b2 :: b3 :: rest) sent
      = if (readAppRecords decode card fuel (b0 >>> 3) b1 b2 sent).finished then
          runAfl decode card fuel rest (readAppRecords decode card fuel (b0 >>> 3) b1 b2 sent).sent
        else readAppRecords decode card fuel (b0 >>> 3) b1 b2 sent := by
  simp [runAfl]

theorem runAfl_short (decode : Decoder) (card : Card) (fuel : Nat) (tail : List Nat)
    (sent : List (List Nat)) (h : tail.length ≤ 3) :
    runAfl decode card fuel tail sent = ⟨sent, true⟩ := by
  rcases tail with _ | ⟨a, _ | ⟨b, _ | ⟨c, _ | ⟨d, t⟩⟩⟩⟩
  · simp [runAfl]
  · simp [runAfl]
  · simp [runAfl]
  · simp [runAfl]
  · simp only [List.length_cons] at h
    omega

/-- A record range with `start > end` sends nothing and ends at once. -/
theorem readAppRecords_empty_range (decode : Decoder) (card : Card) (fuel sfi start end_ : Nat)
    (sent : List (List Nat)) (hfuel : 0 < fuel) (hgt : end_ < start) :
    readAppRecords decode card fuel sfi start end_ sent = ⟨sent, true⟩ := by
  obtain ⟨f, rfl⟩ : ∃ f, fuel = f + 1 := ⟨fuel - 1, by omega⟩
  have h : ¬ start ≤ end_ := by omega
  simp [readAppRecords, readAppRecordsLoop, h]

/-- A record range whose last record is below 255 ends within a budget of 256
iterations. -/
theorem readAppRecords_finished (decode : Decoder) (card : Card) (fuel sfi start end_ : Nat)
    (sent : List (List Nat)) (hfuel : 256 ≤ fuel) (hend : end_ ≤ 254) :
    (readAppRecords decode card fuel sfi start end_ sent).finished = true := by
  by_cases h : end_ < start
  · rw [readAppRecords_empty_range decode card fuel sfi start end_ sent (by omega) h]
  · exact (readAppRecordsLoop_ends decode card sfi end_ hend (end_ + 1 - start) fuel start sent
      (by omega) (by omega)).1

/-! ## Claims on step 4 -/

/-- C11: the READ RECORD commands of step 4 are a function of the saved AFL
bytes alone. Two runs of the AFL loop on the same AFL, with any two cards and
decoders (any per-record outcome: failed exchange, short response, error
status, any response bytes) and any two histories, append the same commands
in the same order, the list `aflCommands fuel afl`, and end alike. -/
theorem C11_record_commands_depend_on_afl_only (d1 d2 : Decoder) (c1 c2 : Card) (fuel : Nat)
    (afl : List Nat) (sent1 sent2 : List (List Nat)) :
    (aflLoop d1 c1 fuel (afl.length + 1) ⟨afl, 0⟩ sent1).sent
      = sent1 ++ (aflCommands fuel afl).1 ∧
    (aflLoop d2 c2 fuel (afl.length + 1) ⟨afl, 0⟩ sent2).sent
      = sent2 ++ (aflCommands fuel afl).1 ∧
    (aflLoop d1 c1 fuel (afl.length + 1) ⟨afl, 0⟩ sent1).finished
      = (aflLoop d2 c2 fuel (afl.length + 1) ⟨afl, 0⟩ sent2).finished := by
  rw [aflLoop_start, aflLoop_start, runAfl_eq_commands, runAfl_eq_commands]
  exact ⟨rfl, rfl, rfl⟩

/-- C12: a complete AFL group `(b0, b1, b2, b3)` makes the AFL loop call
`readAppRecords` with SFI `b0 >> 3`, first record `b1` and last record `b2`,
and go on with the rest of the AFL; the SFI is `b0 / 8`, at most 31; the run
is the same for any other `b3` and any other low three bits of `b0`. -/
theorem C12_afl_group_decoding (decode : Decoder) (card : Card) (fuel : Nat)
    (b0 b1 b2 b3 : Nat) (rest : List Nat) (sent : List (List Nat)) (hb0 : b0 < 256) :
    aflLoop decode card fuel ((b0 :: b1 :: b2 :: b3 :: rest).length + 1)
        ⟨b0 :: b1 :: b2 :: b3 :: rest, 0⟩ sent
      = (if (readAppRecords decode card fuel (b0 >>> 3) b1 b2 sent).finished then
          aflLoop decode card fuel (rest.length + 1) ⟨rest, 0⟩
            (readAppRecords decode card fuel (b0 >>> 3) b1 b2 sent).sent
        else readAppRecords decode card fuel (b0 >>> 3) b1 b2 sent) ∧
    b0 >>> 3 = b0 / 8 ∧ b0 >>> 3 ≤ 31 ∧
    ∀ c0 c3 : Nat, c0 / 8 = b0 / 8 →
      aflLoop decode card fuel ((c0 :: b1 :: b2 :: c3 :: rest).length + 1)
          ⟨c0 :: b1 :: b2 :: c3 :: rest, 0⟩ sent
        = aflLoop decode card fuel ((b0 :: b1 :: b2 :: b3 :: rest).length + 1)
          ⟨b0 :: b1 :: b2 :: b3 :: rest, 0⟩ sent := by
  have hshift : ∀ x : Nat, x >>> 3 = x / 8 := fun x => by
    rw [Nat.shiftRight_eq_div_pow]
  refine ⟨?_, hshift b0, ?_, ?_⟩
  · rw [aflLoop_start, aflLoop_start, runAfl_group]
  · rw [hshift]; omega
  · intro c0 c3 hc
    rw [aflLoop_start, aflLoop_start, runAfl_group, runAfl_group, hshift c0, hshift b0, hc]

/-- Witness for C12: the group `18 01 03 00` gives SFI 3, first 1, last 3. -/
theorem C12_afl_group_decoding_witness :
    (aflLoop last255Decoder last255Card 300 (([0x18, 0x01, 0x03, 0x00] : List Nat).length + 1)
        ⟨[0x18, 0x01, 0x03, 0x00], 0⟩ []
      = (if (readAppRecords last255Decoder last255Card 300 (0x18 >>> 3) 0x01 0x03 []).finished then
          aflLoop last255Decoder last255Card 300 (([] : List Nat).length + 1) ⟨[], 0⟩
            (readAppRecords last255Decoder last255Card 300 (0x18 >>> 3) 0x01 0x03 []).sent
        else readAppRecords last255Decoder last255Card 300 (0x18 >>> 3) 0x01 0x03 []) ∧
    0x18 >>> 3 = 0x18 / 8 ∧ 0x18 >>> 3 ≤ 31 ∧
    ∀ c0 c3 : Nat, c0 / 8 = 0x18 / 8 →
      aflLoop last255Decoder last255Card 300 (([c0, 0x01, 0x03, c3] : List Nat).length + 1)
          ⟨[c0, 0x01, 0x03, c3], 0⟩ []
        = aflLoop last255Decoder last255Card 300
          (([0x18, 0x01, 0x03, 0x00] : List Nat).length + 1) ⟨[0x18, 0x01, 0x03, 0x00], 0⟩ []) ∧
    0x18 >>> 3 = 3 :=
  ⟨C12_afl_group_decoding last255Decoder last255Card 300 0x18 0x01 0x03 0x00 [] [] (by decide),
    by decide⟩

/-- C13: an AFL entry with first > last is skipped. `readAppRecords` sends no
command for it, and for an AFL made of complete groups the run of the AFL
loop is the run on the AFL without that group: the same commands are sent
for the other groups. -/
theorem C13_first_gt_last_skipped (decode : Decoder) (card : Card) (fuel : Nat)
    (gs1 gs2 : List (Nat × Nat × Nat × Nat)) (b0 first last num : Nat)
    (sent : List (List Nat)) (hfuel : 0 < fuel) (hgt : last < first) :
    readAppRecords decode card fuel (b0 >>> 3) first last sent = ⟨sent, true⟩ ∧
    aflLoop decode card fuel ((encodeAfl (gs1 ++ (b0, first, last, num) :: gs2)).length + 1)
        ⟨encodeAfl (gs1 ++ (b0, first, last, num) :: gs2), 0⟩ sent
      = aflLoop decode card fuel ((encodeAfl (gs1 ++ gs2)).length + 1)
          ⟨encodeAfl (gs1 ++ gs2), 0⟩ sent := by
  refine ⟨readAppRecords_empty_range decode card fuel _ first last sent hfuel hgt, ?_⟩
  rw [aflLoop_start, aflLoop_start]
  induction gs1 generalizing sent with
  | nil =>
    simp only [List.nil_append, encodeAfl]
    rw [runAfl_group, readAppRecords_empty_range decode card fuel _ first last sent hfuel hgt]
    simp
  | cons g gs ih =>
    obtain ⟨a0, a1, a2, a3⟩ := g
    simp only [List.cons_append, encodeAfl]
    rw [runAfl_group, runAfl_group]
    by_cases hf : (readAppRecords decode card fuel (a0 >>> 3) a1 a2 sent).finished = true
    · simp only [hf, if_true]
      exact ih _
    · simp [hf]

/-- Witness for C13: the AFL `08 01 02 00 10 05 03 00 18 01 01 00`, whose
second group has first 5 and last 3. -/
theorem C13_first_gt_last_skipped_witness :
    readAppRecords last255Decoder last255Card 300 (0x10 >>> 3) 5 3 [] = ⟨[], true⟩ ∧
    aflLoop last255Decoder last255Card 300
        ((encodeAfl ([(0x08, 1, 2, 0)] ++ (0x10, 5, 3, 0) :: [(0x18, 1, 1, 0)])).length + 1)
        ⟨encodeAfl ([(0x08, 1, 2, 0)] ++ (0x10, 5, 3, 0) :: [(0x18, 1, 1, 0)]), 0⟩ []
      = aflLoop last255Decoder last255Card 300
          ((encodeAfl ([(0x08, 1, 2, 0)] ++ [(0x18, 1, 1, 0)])).length + 1)
          ⟨encodeAfl ([(0x08, 1, 2, 0)] ++ [(0x18, 1, 1, 0)]), 0⟩ [] :=
  C13_first_gt_last_skipped last255Decoder last255Card 300 [(0x08, 1, 2, 0)] [(0x18, 1, 1, 0)]
    0x10 5 3 0 [] (by decide) (by decide)

theorem runAfl_groups_append (decode : Decoder) (card : Card) (fuel : Nat)
    (gs : List (Nat × Nat × Nat × Nat)) (tail : List Nat) :
    ∀ sent : List (List Nat),
      runAfl decode card fuel (encodeAfl gs ++ tail) sent
        = if (runAfl decode card fuel (encodeAfl gs) sent).finished then
            runAfl decode card fuel tail (runAfl decode card fuel (encodeAfl gs) sent).sent
          else runAfl decode card fuel (encodeAfl gs) sent := by
  induction gs with
  | nil => intro sent; simp [encodeAfl, runAfl]
  | cons g gs ih =>
    intro sent
    obtain ⟨a0, a1, a2, a3⟩ := g
    simp only [encodeAfl, List.cons_append]
    rw [runAfl_group, runAfl_group]
    by_cases hf : (readAppRecords decode card fuel (a0 >>> 3) a1 a2 sent).finished = true
    · simp only [hf, if_true]
      exact ih _
    · simp [hf]

theorem runAfl_groups_finished (decode : Decoder) (card : Card) (fuel : Nat)
    (gs : List (Nat × Nat × Nat × Nat)) (hfuel : 256 ≤ fuel)
    (hlast : ∀ g ∈ gs, g.2.2.1 ≤ 254) :
    ∀ sent : List (List Nat), (runAfl decode card fuel (encodeAfl gs) sent).finished = true := by
  induction gs with
  | nil => intro sent; simp [encodeAfl, runAfl]
  | cons g gs ih =>
    intro sent
    obtain ⟨a0, a1, a2, a3⟩ := g
    have h2 : a2 ≤ 254 := hlast (a0, a1, a2, a3) (List.mem_cons_self _ _)
    simp only [encodeAfl]
    rw [runAfl_group, readAppRecords_finished decode card fuel _ a1 a2 sent hfuel h2]
    simp only [if_true]
    exact ih (fun g hg => hlast g (List.mem_cons_of_mem _ hg)) _

/-- Trailing bytes of an AFL. For an AFL made of k complete groups followed
by at most three trailing bytes, the run of the AFL loop is the run on the
first k groups (the AFL truncated to 4k bytes); the trailing bytes alone give
no entry, no command, and the loop ends; and the whole loop ends whenever the
record loops of the complete groups do (last record below 255, budget of 256
iterations). -/
theorem afl_trailing_bytes_ignored (decode : Decoder) (card : Card) (fuel : Nat)
    (gs : List (Nat × Nat × Nat × Nat)) (tail : List Nat) (sent : List (List Nat))
    (htail : tail.length ≤ 3) :
    aflLoop decode card fuel ((encodeAfl gs ++ tail).length + 1) ⟨encodeAfl gs ++ tail, 0⟩ sent
      = aflLoop decode card fuel ((encodeAfl gs).length + 1) ⟨encodeAfl gs, 0⟩ sent ∧
    aflLoop decode card fuel (tail.length + 1) ⟨tail, 0⟩ sent = ⟨sent, true⟩ ∧
    (256 ≤ fuel → (∀ g ∈ gs, g.2.2.1 ≤ 254) →
      (aflLoop decode card fuel ((encodeAfl gs ++ tail).length + 1)
        ⟨encodeAfl gs ++ tail, 0⟩ sent).finished = true) := by
  have h1 : runAfl decode card fuel (encodeAfl gs ++ tail) sent
      = runAfl decode card fuel (encodeAfl gs) sent := by
    rw [runAfl_groups_append]
    by_cases hf : (runAfl decode card fuel (encodeAfl gs) sent).finished = true
    · rw [if_pos hf, runAfl_short decode card fuel tail _ htail]
      rcases hr : runAfl decode card fuel (encodeAfl gs) sent with ⟨s, f⟩
      rw [hr] at hf
      simp only at hf
      simp [hf]
    · rw [if_neg hf]
  refine ⟨?_, ?_, ?_⟩
  · rw [aflLoop_start, aflLoop_start, h1]
  · rw [aflLoop_start, runAfl_short decode card fuel tail sent htail]
  · intro hfuel hlast
    rw [aflLoop_start, h1]
    exact runAfl_groups_finished decode card fuel gs hfuel hlast sent

/-- The six-byte AFL `18 01 01 00 20 01`. -/
theorem afl_trailing_bytes_ignored_example :
    aflLoop last255Decoder last255Card 300
        ((encodeAfl [(0x18, 1, 1, 0)] ++ [0x20, 0x01]).length + 1)
        ⟨encodeAfl [(0x18, 1, 1, 0)] ++ [0x20, 0x01], 0⟩ []
      = aflLoop last255Decoder last255Card 300 ((encodeAfl [(0x18, 1, 1, 0)]).length + 1)
          ⟨encodeAfl [(0x18, 1, 1, 0)], 0⟩ [] ∧
    aflLoop last255Decoder last255Card 300 (([0x20, 0x01] : List Nat).length + 1)
        ⟨[0x20, 0x01], 0⟩ [] = ⟨[], true⟩ ∧
    (256 ≤ 300 → (∀ g ∈ [((0x18 : Nat), (1 : Nat), (1 : Nat), (0 : Nat))], g.2.2.1 ≤ 254) →
      (aflLoop last255Decoder last255Card 300
        ((encodeAfl [(0x18, 1, 1, 0)] ++ [0x20, 0x01]).length + 1)
        ⟨encodeAfl [(0x18, 1, 1, 0)] ++ [0x20, 0x01], 0⟩ []).finished = true) :=
  afl_trailing_bytes_ignored last255Decoder last255Card 300 [(0x18, 1, 1, 0)] [0x20, 0x01] []
    (by decide)

/-- C14: for the six-byte AFL `08 01 FF 00 20 01` (one complete group with
last record 255, then two trailing bytes) the decoding loop does not end:
whatever the iteration budget, the run is still inside `readAppRecords` when
the budget is used up, because the record loop never exits with last = 255.
The rest holds for every AFL of k complete groups followed by at most three
bytes: the run is the run on the AFL truncated to its k groups, the trailing
bytes give no entry and no command, and the loop ends whenever every last
record is below 255. -/
theorem C14_trailing_bytes_after_last_255 (decode : Decoder) (card : Card)
    (sent : List (List Nat)) :
    (∀ fuel : Nat,
      (aflLoop decode card fuel (([0x08, 0x01, 0xFF, 0x00, 0x20, 0x01] : List Nat).length + 1)
        ⟨[0x08, 0x01, 0xFF, 0x00, 0x20, 0x01], 0⟩ sent).finished = false) ∧
    (∀ (fuel : Nat) (gs : List (Nat × Nat × Nat × Nat)) (tail : List Nat), tail.length ≤ 3 →
      aflLoop decode card fuel ((encodeAfl gs ++ tail).length + 1) ⟨encodeAfl gs ++ tail, 0⟩ sent
        = aflLoop decode card fuel ((encodeAfl gs).length + 1) ⟨encodeAfl gs, 0⟩ sent ∧
      aflLoop decode card fuel (tail.length + 1) ⟨tail, 0⟩ sent = ⟨sent, true⟩ ∧
      (256 ≤ fuel → (∀ g ∈ gs, g.2.2.1 ≤ 254) →
        (aflLoop decode card fuel ((encodeAfl gs ++ tail).length + 1)
          ⟨encodeAfl gs ++ tail, 0⟩ sent).finished = true)) := by
  refine ⟨?_, fun fuel gs tail htail =>
    afl_trailing_bytes_ignored decode card fuel gs tail sent htail⟩
  intro fuel
  have h := (readAppRecordsLoop_last_255 decode card (0x08 >>> 3) fuel 1 sent (by decide)).1
  rw [aflLoop_start, runAfl_group]
  simp only [readAppRecords, h]
  simpa using h

/-! ## Structure of DOL resolution -/

theorem emitPair_andThen (tag len : Nat) (wb : WriteBuffer) (k next : WriteBuffer → BuildResult) :
    (emitPair tag len wb k).andThen next = emitPair tag len wb (fun w => (k w).andThen next) := by
  unfold emitPair
  rcases getDataOption tag with o | _ | i
  · simp only
    split
    · split <;> rfl
    · rfl
  · rfl
  · rfl

/-- Resolving a request of complete pairs followed by a second request is
resolving the first and then the second into the buffer the first returned. -/
theorem runDol_append (r2 : List Nat) :
    ∀ (r1 : List Nat) (wb : WriteBuffer), completePairs r1 = true →
      runDol (r1 ++ r2) wb = (runDol r1 wb).andThen (runDol r2)
  | [], wb, _ => by simp [runDol, BuildResult.andThen]
  | [_], _, h => by simp [completePairs] at h
  | [b0, b1], wb, h => by
    have hb : ¬ b0 % 32 = 31 := by simpa [completePairs] using h
    have hk : ∀ f : WriteBuffer → BuildResult,
        (fun w => (BuildResult.returned true w).andThen f) = f := fun f => by
      funext w
      rfl
    rcases r2 with _ | ⟨c, r2⟩
    · simp only [List.append_nil, runDol, hb, if_false, emitPair_andThen, hk]
    · simp only [List.cons_append, List.nil_append, runDol, hb, if_false, emitPair_andThen, hk]
  | b0 :: b1 :: b2 :: rest, wb, h => by
    by_cases hb : b0 % 32 = 31
    · have hrest : completePairs rest = true := by simpa [completePairs, hb] using h
      have ih := fun w => runDol_append r2 rest w hrest
      simp only [List.cons_append, runDol, hb, if_true, emitPair_andThen]
      congr 1
      funext w
      exact ih w
    · have hrest : completePairs (b2 :: rest) = true := by simpa [completePairs, hb] using h
      have ih := fun w => runDol_append r2 (b2 :: rest) w hrest
      simp only [List.cons_append, runDol, hb, if_false, emitPair_andThen]
      congr 1
      funext w
      exact ih w

theorem encodeDol_append (ps qs : List (Nat × Nat)) :
    encodeDol (ps ++ qs) = encodeDol ps ++ encodeDol qs := by
  induction ps with
  | nil => rfl
  | cons p ps ih =>
    obtain ⟨t, n⟩ := p
    simp [encodeDol, ih]

theorem resolved_append (ps qs : List (Nat × Nat)) :
    resolved (ps ++ qs) = resolved ps ++ resolved qs := by
  induction ps with
  | nil => rfl
  | cons p ps ih =>
    obtain ⟨t, n⟩ := p
    simp [resolved, ih]

theorem requestedTotal_append (ps qs : List (Nat × Nat)) :
    requestedTotal (ps ++ qs) = requestedTotal ps + requestedTotal qs := by
  induction ps with
  | nil => simp [requestedTotal]
  | cons p ps ih =>
    obtain ⟨t, n⟩ := p
    simp [requestedTotal, ih, Nat.add_assoc]

theorem completePairs_encodeDol (ps : List (Nat × Nat))
    (hall : ∀ p ∈ ps, p.1 ∈ dictionaryTags ∧ p.2 < 256) : completePairs (encodeDol ps) = true := by
  induction ps with
  | nil => rfl
  | cons p ps ih =>
    obtain ⟨t, n⟩ := p
    have h31 := (dictionary_tag_bytes t (hall (t, n) (List.mem_cons_self _ _)).1).1
    simp only [encodeDol, completePairs, h31, if_true]
    exact ih (fun q hq => hall q (List.mem_cons_of_mem _ hq))

theorem putByte_full (wb : WriteBuffer) (b : Nat) (h : wb.buffer_size ≤ wb.pos) :
    wb.putByte b = wb := by
  have : ¬ wb.pos < wb.buffer_size := by omega
  simp [WriteBuffer.putByte, this]

theorem foldl_putByte_full (l : List Nat) (wb : WriteBuffer) (h : wb.buffer_size ≤ wb.pos) :
    l.foldl WriteBuffer.putByte wb = wb := by
  induction l with
  | nil => rfl
  | cons a l ih => rw [List.foldl_cons, putByte_full wb a h, ih]

theorem padZeros_full (n : Nat) (wb : WriteBuffer) (h : wb.buffer_size ≤ wb.pos) :
    padZeros n wb = wb := by
  induction n with
  | zero => rfl
  | succ n ih => rw [padZeros, putByte_full wb 0 h, ih]

/-- Into a buffer that is full, the loop body writes nothing for a dictionary
tag. -/
theorem emitPair_dictionary_full (tag len : Nat) (wb : WriteBuffer)
    (k : WriteBuffer → BuildResult) (h : tag ∈ dictionaryTags)
    (hfull : wb.buffer_size ≤ wb.pos) : emitPair tag len wb k = k wb := by
  have hput : ∀ c, wb.putBytes (storedValue tag) c = wb := fun c =>
    foldl_putByte_full _ wb hfull
  simp only [emitPair, getDataOption_dictionary tag h, hput, padZeros_full _ wb hfull]
  split
  · split <;> rfl
  · rfl

theorem emitPair_dictionary_exists (tag len : Nat) (wb : WriteBuffer)
    (k : WriteBuffer → BuildResult) (h : tag ∈ dictionaryTags) :
    ∃ w, emitPair tag len wb k = k w := by
  simp only [emitPair, getDataOption_dictionary tag h]
  split
  · split
    · exact ⟨_, rfl⟩
    · exact ⟨_, rfl⟩
  · exact ⟨_, rfl⟩

theorem emitPair_false (tag len : Nat) (wb : WriteBuffer) (k : WriteBuffer → BuildResult)
    (out : WriteBuffer) (h : emitPair tag len wb k = .returned false out) :
    ∃ w, k w = .returned false out := by
  unfold emitPair at h
  rcases hg : getDataOption tag with o | _ | i
  · rw [hg] at h
    simp only at h
    split at h
    · split at h
      · exact ⟨_, h⟩
      · exact ⟨_, h⟩
    · exact ⟨_, h⟩
  · rw [hg] at h
    exact ⟨_, h⟩
  · rw [hg] at h
    exact BuildResult.noConfusion h

/-- The loop returns false only on a request that is not made of complete
pairs. -/
theorem runDol_false_incomplete :
    ∀ (req : List Nat) (wb out : WriteBuffer), runDol req wb = .returned false out →
      completePairs req = false
  | [], wb, out, h => by simp [runDol] at h
  | [_], _, _, _ => rfl
  | [b0, b1], wb, out, h => by
    by_cases hb : b0 % 32 = 31
    · simp [completePairs, hb]
    · simp only [runDol, hb, if_false] at h
      obtain ⟨w, hw⟩ := emitPair_false _ _ _ _ _ h
      simp [runDol] at hw
  | b0 :: b1 :: b2 :: rest, wb, out, h => by
    by_cases hb : b0 % 32 = 31
    · simp only [runDol, hb, if_true] at h
      obtain ⟨w, hw⟩ := emitPair_false _ _ _ _ _ h
      simpa [completePairs, hb] using runDol_false_incomplete rest w out hw
    · simp only [runDol, hb, if_false] at h
      obtain ⟨w, hw⟩ := emitPair_false _ _ _ _ _ h
      simpa [completePairs, hb] using runDol_false_incomplete (b2 :: rest) w out hw

/-- A request of complete pairs with dictionary tags returns true, whatever
the requested lengths and the room in the output buffer. -/
theorem runDol_dictionary_true (ps : List (Nat × Nat)) :
    ∀ wb : WriteBuffer, (∀ p ∈ ps, p.1 ∈ dictionaryTags ∧ p.2 < 256) →
      ∃ out, runDol (encodeDol ps) wb = .returned true out := by
  induction ps with
  | nil => intro wb _; exact ⟨wb, by simp [encodeDol, runDol]⟩
  | cons p ps ih =>
    intro wb hall
    obtain ⟨t, n⟩ := p
    obtain ⟨h31, hval⟩ := dictionary_tag_bytes t (hall (t, n) (List.mem_cons_self _ _)).1
    obtain ⟨w, hw⟩ := emitPair_dictionary_exists t n wb (runDol (encodeDol ps))
      (hall (t, n) (List.mem_cons_self _ _)).1
    obtain ⟨out, hout⟩ := ih w (fun q hq => hall q (List.mem_cons_of_mem _ hq))
    refine ⟨out, ?_⟩
    simp only [encodeDol, runDol, h31, if_true, hval]
    rw [hw, hout]

theorem runDol_cutPair (tail : List Nat) (wb : WriteBuffer) (h : cutPair tail = true) :
    runDol tail wb = .returned false wb := by
  rcases tail with _ | ⟨a, _ | ⟨b, _ | ⟨c, t⟩⟩⟩
  · simp [cutPair] at h
  · simp [runDol]
  · have hb : a % 32 = 31 := by simpa [cutPair] using h
    simp [runDol, hb]
  · simp [cutPair] at h

/-! ## Claims on the structure of DOL resolution -/

/-- C15 (as amended): DOL resolution is order-preserving concatenation as long
as the output fits. For two requests of complete pairs with dictionary tags
whose requested lengths sum to at most 255, the free space of the output
buffer, the output on the first followed by the second is the output on the
first followed by the output on the second; and for every request of complete
pairs followed by any second request, resolution is resolution of the first
and then of the second into the same buffer. -/
theorem C15_resolution_concatenates (ps1 ps2 : List (Nat × Nat))
    (hall1 : ∀ p ∈ ps1, p.1 ∈ dictionaryTags ∧ p.2 < 256)
    (hall2 : ∀ p ∈ ps2, p.1 ∈ dictionaryTags ∧ p.2 < 256)
    (hfit : requestedTotal ps1 + requestedTotal ps2 ≤ 255) :
    buildDataOptionsList (some (pdolNode (encodeDol ps1))) dataBuffer
      = .returned true ⟨255, resolved ps1⟩ ∧
    buildDataOptionsList (some (pdolNode (encodeDol ps2))) dataBuffer
      = .returned true ⟨255, resolved ps2⟩ ∧
    buildDataOptionsList (some (pdolNode (encodeDol ps1 ++ encodeDol ps2))) dataBuffer
      = .returned true ⟨255, resolved ps1 ++ resolved ps2⟩ ∧
    ∀ (r1 r2 : List Nat) (wb : WriteBuffer), completePairs r1 = true →
      buildDataOptionsList (some (pdolNode (r1 ++ r2))) wb
        = (buildDataOptionsList (some (pdolNode r1)) wb).andThen
            (fun out => buildDataOptionsList (some (pdolNode r2)) out) := by
  have hall : ∀ p ∈ ps1 ++ ps2, p.1 ∈ dictionaryTags ∧ p.2 < 256 := by
    intro p hp
    rcases List.mem_append.mp hp with h | h
    · exact hall1 p h
    · exact hall2 p h
  refine ⟨?_, ?_, ?_, ?_⟩
  · rw [buildDataOptionsList_some, runDol_dictionary ps1 dataBuffer hall1 (by
      simp only [dataBuffer, WriteBuffer.pos, List.length_nil]; omega)]
    simp [dataBuffer]
  · rw [buildDataOptionsList_some, runDol_dictionary ps2 dataBuffer hall2 (by
      simp only [dataBuffer, WriteBuffer.pos, List.length_nil]; omega)]
    simp [dataBuffer]
  · rw [buildDataOptionsList_some, ← encodeDol_append, runDol_dictionary (ps1 ++ ps2) dataBuffer
      hall (by
        simp only [dataBuffer, WriteBuffer.pos, List.length_nil, requestedTotal_append]; omega)]
    simp [dataBuffer, resolved_append]
  · intro r1 r2 wb h
    rw [buildDataOptionsList_some, buildDataOptionsList_some, runDol_append r2 r1 wb h]
    congr 1
    funext out
    rw [buildDataOptionsList_some]

/-- Witness for C15: the requests `9F66 04` and `5F2A 02`. -/
theorem C15_resolution_concatenates_witness :
    buildDataOptionsList (some (pdolNode (encodeDol [(0x9f66, 4)]))) dataBuffer
      = .returned true ⟨255, resolved [(0x9f66, 4)]⟩ ∧
    buildDataOptionsList (some (pdolNode (encodeDol [(0x5f2a, 2)]))) dataBuffer
      = .returned true ⟨255, resolved [(0x5f2a, 2)]⟩ ∧
    buildDataOptionsList
        (some (pdolNode (encodeDol [(0x9f66, 4)] ++ encodeDol [(0x5f2a, 2)]))) dataBuffer
      = .returned true ⟨255, resolved [(0x9f66, 4)] ++ resolved [(0x5f2a, 2)]⟩ ∧
    ∀ (r1 r2 : List Nat) (wb : WriteBuffer), completePairs r1 = true →
      buildDataOptionsList (some (pdolNode (r1 ++ r2))) wb
        = (buildDataOptionsList (some (pdolNode r1)) wb).andThen
            (fun out => buildDataOptionsList (some (pdolNode r2)) out) :=
  C15_resolution_concatenates [(0x9f66, 4)] [(0x5f2a, 2)] (by decide) (by decide) (by decide)

/-- C15 fails as stated: for the well-formed requests `9F4E FF` and `9F35 01`
the outputs are 255 bytes and the byte 14, and the output on `9F4E FF 9F35
01` is the 255 bytes of the first alone, not the 256 bytes of the
concatenation. -/
theorem C15_counterexample :
    buildDataOptionsList (some (pdolNode (encodeDol [(0x9f4e, 255)]))) dataBuffer
      = .returned true ⟨255, contribution 0x9f4e 255⟩ ∧
    buildDataOptionsList (some (pdolNode (encodeDol [(0x9f35, 1)]))) dataBuffer
      = .returned true ⟨255, [0x14]⟩ ∧
    buildDataOptionsList
        (some (pdolNode (encodeDol [(0x9f4e, 255)] ++ encodeDol [(0x9f35, 1)]))) dataBuffer
      = .returned true ⟨255, contribution 0x9f4e 255⟩ ∧
    contribution 0x9f4e 255 ≠ contribution 0x9f4e 255 ++ [0x14] := by
  have h1 : runDol (encodeDol [(0x9f4e, 255)]) dataBuffer
      = .returned true ⟨255, contribution 0x9f4e 255⟩ := by
    have := runDol_dictionary [(0x9f4e, 255)] dataBuffer (by decide) (by decide)
    simpa [resolved, dataBuffer] using this
  refine ⟨?_, by decide, ?_, ?_⟩
  · rw [buildDataOptionsList_some, h1]
  · rw [buildDataOptionsList_some, runDol_append _ _ _ (by decide), h1]
    have hfull : (⟨255, contribution 0x9f4e 255⟩ : WriteBuffer).buffer_size
        ≤ (⟨255, contribution 0x9f4e 255⟩ : WriteBuffer).pos := by
      simp [WriteBuffer.pos, contribution_length]
    simp only [BuildResult.andThen, encodeDol, runDol]
    rw [if_pos (by decide), emitPair_dictionary_full _ _ _ _ (by decide) hfull]
  · intro h
    have := congrArg List.length h
    simp [contribution_length] at this

/-- C16: at the request `9A 03` (one complete pair, transaction date, a tag
the dictionary does not hold) `buildDataOptionsList` does not return true:
the table search reads `data_options_list[8]`, past the array; and the
malformed request `9A 03 9F` does not return false for the same reason. What
holds: false is returned only for a request that is not made of complete
pairs; a null and an empty request return true; a request of complete pairs
with dictionary tags returns true whatever the lengths and the room; such a
request followed by a pair that is cut returns false. -/
theorem C16_fails_only_on_malformed_request :
    completePairs [0x9A, 0x03] = true ∧
    buildDataOptionsList (some (pdolNode [0x9A, 0x03])) dataBuffer = .overrun 8 ∧
    completePairs [0x9A, 0x03, 0x9F] = false ∧
    buildDataOptionsList (some (pdolNode [0x9A, 0x03, 0x9F])) dataBuffer = .overrun 8 ∧
    (∀ (req : List Nat) (wb out : WriteBuffer),
      buildDataOptionsList (some (pdolNode req)) wb = .returned false out →
        completePairs req = false) ∧
    (∀ wb : WriteBuffer, buildDataOptionsList none wb = .returned true wb ∧
      buildDataOptionsList (some (pdolNode [])) wb = .returned true wb) ∧
    (∀ (ps : List (Nat × Nat)) (wb : WriteBuffer),
      (∀ p ∈ ps, p.1 ∈ dictionaryTags ∧ p.2 < 256) →
        ∃ out, buildDataOptionsList (some (pdolNode (encodeDol ps))) wb = .returned true out) ∧
    (∀ (ps : List (Nat × Nat)) (tail : List Nat) (wb : WriteBuffer),
      (∀ p ∈ ps, p.1 ∈ dictionaryTags ∧ p.2 < 256) → cutPair tail = true →
        ∃ out, buildDataOptionsList (some (pdolNode (encodeDol ps ++ tail))) wb
          = .returned false out) := by
  refine ⟨by decide, by decide, by decide, by decide, ?_, ?_, ?_, ?_⟩
  · intro req wb out h
    rw [buildDataOptionsList_some] at h
    exact runDol_false_incomplete req wb out h
  · intro wb
    constructor
    · simp [buildDataOptionsList, buildLoop, ReadBuffer.atEnd]
    · rw [buildDataOptionsList_some]
      simp [runDol]
  · intro ps wb hall
    obtain ⟨out, h⟩ := runDol_dictionary_true ps wb hall
    exact ⟨out, by rw [buildDataOptionsList_some, h]⟩
  · intro ps tail wb hall hcut
    obtain ⟨out, h⟩ := runDol_dictionary_true ps wb hall
    refine ⟨out, ?_⟩
    rw [buildDataOptionsList_some, runDol_append tail (encodeDol ps) wb
      (completePairs_encodeDol ps hall), h]
    simp only [BuildResult.andThen]
    exact runDol_cutPair tail out hcut

/-- C17 fails as stated: on the malformed request `9F66 04 9F` the call
returns false and the output buffer, empty before the call, holds the four
bytes written for the complete pair. -/
theorem C17_counterexample :
    buildDataOptionsList (some (pdolNode [0x9F, 0x66, 0x04, 0x9F])) dataBuffer
      = .returned false ⟨255, [0x36, 0x80, 0x40, 0x00]⟩ ∧
    (⟨255, [0x36, 0x80, 0x40, 0x00]⟩ : WriteBuffer) ≠ dataBuffer ∧
    (⟨255, [0x36, 0x80, 0x40, 0x00]⟩ : WriteBuffer).pos = 4 ∧ dataBuffer.pos = 0 := by
  decide

/-! ## Selection among templates without priority indicator -/

theorem selectLoop_skip_no_aid (pre rest : List TLVNode) (s : Selection)
    (hpre : ∀ u ∈ pre, u.findChild 0x4f = none) :
    selectLoop (pre ++ rest) s = selectLoop rest s := by
  induction pre with
  | nil => rfl
  | cons u pre ih =>
    have hu := hpre u (List.mem_cons_self _ _)
    simp only [List.cons_append, selectLoop, hu]
    exact ih (fun v hv => hpre v (List.mem_cons_of_mem _ hv))

theorem selectLoop_keep (post : List TLVNode) (s : Selection) (hs : s.sel_app_pref ≤ 98)
    (hpost : ∀ u ∈ post, u.findChild 0x4f ≠ none → u.findChild 0x87 = none) :
    selectLoop post s = some s := by
  induction post with
  | nil => rfl
  | cons u post ih =>
    have ih' := ih (fun v hv => hpost v (List.mem_cons_of_mem _ hv))
    rcases ha : u.findChild 0x4f with _ | a
    · simp only [selectLoop, ha]
      exact ih'
    · have hn := hpost u (List.mem_cons_self _ _) (by rw [ha]; exact Option.some_ne_none _)
      have hlt : ¬ 98 < s.sel_app_pref := by omega
      simp only [selectLoop, ha, hn, appPref, hlt, if_false]
      exact ih'

/-- C18: among candidates without a priority indicator the first encountered
wins. When the templates that carry an AID all lack a priority indicator,
`getPreferredAID` returns the AID of the first template that carries one, in
response order. -/
theorem C18_first_without_priority_wins (decode : Decoder) (card : Card) (rx : List Nat)
    (pre post : List TLVNode) (t aid : TLVNode)
    (hrx : card [discoveryApdu] = some rx) (hok : responseOk rx = true)
    (hts : (decode (payload rx)).findAll 0x61 = pre ++ t :: post)
    (hpre : ∀ u ∈ pre, u.findChild 0x4f = none)
    (haid : t.findChild 0x4f = some aid) (hnone : t.findChild 0x87 = none)
    (hpost : ∀ u ∈ post, u.findChild 0x4f ≠ none → u.findChild 0x87 = none) :
    (getPreferredAID decode card []).1 = .node aid := by
  rw [getPreferredAID_of_response decode card rx hrx hok, hts,
    selectLoop_skip_no_aid pre (t :: post) _ hpre]
  have hstep : selectLoop (t :: post) ⟨99, none, none⟩
      = selectLoop post ⟨98, some aid, t.findChild 0x50⟩ := by
    simp [selectLoop, haid, hnone, appPref]
  rw [hstep, selectLoop_keep post _ (Nat.le_refl 98) hpost]

/-- Witness for C18: a template without AID, then two templates with an AID
and no priority indicator; the AID of the first of the two is returned. -/
theorem C18_first_without_priority_wins_witness :
    (getPreferredAID
      (decoderOf
        [0x61, 0x03, 0x50, 0x01, 0x41,
         0x61, 0x09, 0x4F, 0x07, 0xA0, 0x00, 0x00, 0x00, 0x04, 0x10, 0x10,
         0x61, 0x09, 0x4F, 0x07, 0xA0, 0x00, 0x00, 0x00, 0x03, 0x10, 0x10]
        [.mk 0x61 [] [.mk 0x50 [0x41] []], templateWithoutPriority aidMastercard,
          templateWithoutPriority aidVisa])
      (cardAnswering
        [0x61, 0x03, 0x50, 0x01, 0x41,
         0x61, 0x09, 0x4F, 0x07, 0xA0, 0x00, 0x00, 0x00, 0x04, 0x10, 0x10,
         0x61, 0x09, 0x4F, 0x07, 0xA0, 0x00, 0x00, 0x00, 0x03, 0x10, 0x10, 0x90, 0x00])
      []).1 = .node (.mk 0x4f aidMastercard []) :=
  C18_first_without_priority_wins _ _
    [0x61, 0x03, 0x50, 0x01, 0x41,
     0x61, 0x09, 0x4F, 0x07, 0xA0, 0x00, 0x00, 0x00, 0x04, 0x10, 0x10,
     0x61, 0x09, 0x4F, 0x07, 0xA0, 0x00, 0x00, 0x00, 0x03, 0x10, 0x10, 0x90, 0x00]
    [.mk 0x61 [] [.mk 0x50 [0x41] []]] [templateWithoutPriority aidVisa]
    (templateWithoutPriority aidMastercard) (.mk 0x4f aidMastercard [])
    (by rfl) (by rfl) (by rfl)
    (by
      intro u hu
      rw [List.mem_singleton] at hu
      subst hu
      rfl)
    (by rfl) (by rfl)
    (by
      intro u hu _
      rw [List.mem_singleton] at hu
      subst hu
      rfl)

/-! ## The GET PROCESSING OPTIONS command -/

theorem putByte_keeps_data (wb : WriteBuffer) (b : Nat) :
    ∃ l, (wb.putByte b).data = wb.data ++ l ∧ (wb.putByte b).buffer_size = wb.buffer_size := by
  unfold WriteBuffer.putByte
  split
  · exact ⟨[b], rfl, rfl⟩
  · exact ⟨[], by simp, rfl⟩

theorem foldl_putByte_keeps_data (l : List Nat) :
    ∀ wb : WriteBuffer, ∃ m, (l.foldl WriteBuffer.putByte wb).data = wb.data ++ m ∧
      (l.foldl WriteBuffer.putByte wb).buffer_size = wb.buffer_size := by
  induction l with
  | nil => intro wb; exact ⟨[], by simp, rfl⟩
  | cons a l ih =>
    intro wb
    obtain ⟨m1, h1, hs1⟩ := putByte_keeps_data wb a
    obtain ⟨m2, h2, hs2⟩ := ih (wb.putByte a)
    refine ⟨m1 ++ m2, ?_, ?_⟩
    · rw [List.foldl_cons, h2, h1, List.append_assoc]
    · rw [List.foldl_cons, hs2, hs1]

theorem gpoApdu_header (a b : Nat) :
    (((txBuffer.putBytes [0x80, 0xA8, 0x00, 0x00] 4).putByte a).putByte 0x83).putByte b
      = ⟨255, [0x80, 0xA8, 0x00, 0x00, a, 0x83, b]⟩ := by
  simp [txBuffer, WriteBuffer.putBytes, WriteBuffer.putByte, WriteBuffer.pos]

/-- The command built around `n` resolved bytes, `n` at most 247. -/
theorem gpoApdu_small (out : WriteBuffer) (hn : out.pos ≤ 247) :
    gpoApdu out = [0x80, 0xA8, 0x00, 0x00, out.pos + 2, 0x83, out.pos] ++ out.data ++ [0x00] := by
  have hpos : out.data.length = out.pos := rfl
  have hm1 : (out.pos + 2) % 256 = out.pos + 2 := Nat.mod_eq_of_lt (by omega)
  have hm2 : out.pos % 256 = out.pos := Nat.mod_eq_of_lt (by omega)
  have htake : List.take out.pos out.data = out.data := by
    rw [← hpos]; exact List.take_length _
  unfold gpoApdu
  rw [gpoApdu_header, hm1, hm2,
    putBytes_room ⟨255, [0x80, 0xA8, 0x00, 0x00, out.pos + 2, 0x83, out.pos]⟩ out.data out.pos
      (by
        simp only [WriteBuffer.pos, htake, List.length_cons, List.length_nil] at *
        omega),
    putByte_room _ _ (by
      simp only [WriteBuffer.pos, htake, List.length_append, List.length_cons,
        List.length_nil] at *
      omega)]
  simp [htake]

/-- C20 (as amended): for a PDOL whose resolution succeeds with `n` resolved
bytes `d`, `n` at most 247, the GET PROCESSING OPTIONS command sent is
`80 A8 00 00`, the byte `n + 2`, the tag `83`, the byte `n`, the bytes of `d`
and a final `00`, `n + 8` bytes in all; for an absent PDOL it is
`80 A8 00 00 02 83 00 00`. -/
theorem C20_gpo_command (decode : Decoder) (card : Card) (pdol_node : Option TLVNode)
    (out : WriteBuffer) (sent : List (List Nat))
    (hbuild : buildDataOptionsList pdol_node dataBuffer = .returned true out)
    (hn : out.pos ≤ 247) :
    (getProcessingOptions decode card pdol_node sent).2
      = sent ++ [[0x80, 0xA8, 0x00, 0x00, out.pos + 2, 0x83, out.pos] ++ out.data ++ [0x00]] ∧
    ([0x80, 0xA8, 0x00, 0x00, out.pos + 2, 0x83, out.pos] ++ out.data ++ [0x00]).length
      = out.pos + 8 ∧
    buildDataOptionsList none dataBuffer = .returned true dataBuffer ∧
    (∀ s : List (List Nat), (getProcessingOptions decode card none s).2
      = s ++ [[0x80, 0xA8, 0x00, 0x00, 0x02, 0x83, 0x00, 0x00]]) := by
  have hsent : ∀ (p : Option TLVNode) (o : WriteBuffer) (s : List (List Nat)),
      buildDataOptionsList p dataBuffer = .returned true o →
      (getProcessingOptions decode card p s).2 = s ++ [gpoApdu o] := by
    intro p o s hb
    simp only [getProcessingOptions, hb]
    rcases card (s ++ [gpoApdu o]) with _ | rx
    · rfl
    · simp only
      split
      · rfl
      · rcases (decode (payload rx)).findTLV 0x94 with _ | ⟨n, sibs⟩ <;> rfl
  have hnone : buildDataOptionsList none dataBuffer = .returned true dataBuffer := by decide
  refine ⟨?_, ?_, hnone, ?_⟩
  · rw [hsent pdol_node out sent hbuild, gpoApdu_small out hn]
  · simp only [List.length_append, List.length_cons, List.length_nil, WriteBuffer.pos]
    omega
  · intro s
    rw [hsent none dataBuffer s hnone]
    have : gpoApdu dataBuffer = [0x80, 0xA8, 0x00, 0x00, 0x02, 0x83, 0x00, 0x00] := by decide
    rw [this]

/-- Witness for C20: the PDOL `9F66 04 5F2A 02`, six resolved bytes. -/
theorem C20_gpo_command_witness :
    (getProcessingOptions scenarioDecoder scenarioCard
        (some (pdolNode [0x9F, 0x66, 0x04, 0x5F, 0x2A, 0x02])) []).2
      = [] ++ [[0x80, 0xA8, 0x00, 0x00,
          (⟨255, [0x36, 0x80, 0x40, 0x00, 0x08, 0x40]⟩ : WriteBuffer).pos + 2, 0x83,
          (⟨255, [0x36, 0x80, 0x40, 0x00, 0x08, 0x40]⟩ : WriteBuffer).pos]
          ++ (⟨255, [0x36, 0x80, 0x40, 0x00, 0x08, 0x40]⟩ : WriteBuffer).data ++ [0x00]] ∧
    ([0x80, 0xA8, 0x00, 0x00,
          (⟨255, [0x36, 0x80, 0x40, 0x00, 0x08, 0x40]⟩ : WriteBuffer).pos + 2, 0x83,
          (⟨255, [0x36, 0x80, 0x40, 0x00, 0x08, 0x40]⟩ : WriteBuffer).pos]
          ++ (⟨255, [0x36, 0x80, 0x40, 0x00, 0x08, 0x40]⟩ : WriteBuffer).data ++ [0x00]).length
      = (⟨255, [0x36, 0x80, 0x40, 0x00, 0x08, 0x40]⟩ : WriteBuffer).pos + 8 ∧
    buildDataOptionsList none dataBuffer = .returned true dataBuffer ∧
    (∀ s : List (List Nat), (getProcessingOptions scenarioDecoder scenarioCard none s).2
      = s ++ [[0x80, 0xA8, 0x00, 0x00, 0x02, 0x83, 0x00, 0x00]]) :=
  C20_gpo_command scenarioDecoder scenarioCard
    (some (pdolNode [0x9F, 0x66, 0x04, 0x5F, 0x2A, 0x02]))
    ⟨255, [0x36, 0x80, 0x40, 0x00, 0x08, 0x40]⟩ [] (by decide) (by decide)

/-- C20 fails as stated: the PDOL `9F4E F8` resolves to 248 bytes and the
command built has 255 bytes, not 256 (the final `00` does not fit the 255-byte
transmit buffer); the PDOL `9F4E FF` resolves to 255 bytes and the first
length byte of the command is 1, not 257. -/
theorem C20_counterexample :
    buildDataOptionsList (some (pdolNode (encodeDol [(0x9f4e, 248)]))) dataBuffer
      = .returned true ⟨255, contribution 0x9f4e 248⟩ ∧
    (⟨255, contribution 0x9f4e 248⟩ : WriteBuffer).pos = 248 ∧
    (gpoApdu ⟨255, contribution 0x9f4e 248⟩).length = 255 ∧
    buildDataOptionsList (some (pdolNode (encodeDol [(0x9f4e, 255)]))) dataBuffer
      = .returned true ⟨255, contribution 0x9f4e 255⟩ ∧
    (⟨255, contribution 0x9f4e 255⟩ : WriteBuffer).pos = 255 ∧
    (gpoApdu ⟨255, contribution 0x9f4e 255⟩)[4]? = some 1 := by
  have hb : ∀ n, n ≤ 255 → runDol (encodeDol [(0x9f4e, n)]) dataBuffer
      = .returned true ⟨255, contribution 0x9f4e n⟩ := by
    intro n hn
    have := runDol_dictionary [(0x9f4e, n)] dataBuffer
      (by
        intro p hp
        rw [List.mem_singleton] at hp
        subst hp
        exact ⟨(by decide : (0x9f4e : Nat) ∈ dictionaryTags), by simp only; omega⟩)
      (by simp only [dataBuffer, WriteBuffer.pos, List.length_nil, requestedTotal]; omega)
    simpa [resolved, dataBuffer] using this
  have htake : ∀ n, List.take n (contribution 0x9f4e n) = contribution 0x9f4e n := fun n => by
    have h := List.take_length (contribution 0x9f4e n)
    rwa [contribution_length] at h
  refine ⟨?_, ?_, ?_, ?_, ?_, ?_⟩
  · rw [buildDataOptionsList_some, hb 248 (by decide)]
  · simp [WriteBuffer.pos, contribution_length]
  · have hp : (⟨255, contribution 0x9f4e 248⟩ : WriteBuffer).pos = 248 := by
      simp [WriteBuffer.pos, contribution_length]
    unfold gpoApdu
    rw [gpoApdu_header, hp,
      putBytes_room ⟨255, [0x80, 0xA8, 0x00, 0x00, (248 + 2) % 256, 0x83, 248 % 256]⟩
        (contribution 0x9f4e 248) 248 (by
          simp only [WriteBuffer.pos, htake, List.length_cons, List.length_nil,
            contribution_length]
          omega),
      putByte_full _ _ (by
        simp only [WriteBuffer.pos, htake, List.length_append, List.length_cons,
          List.length_nil, contribution_length]
        omega)]
    simp [htake, contribution_length]
  · rw [buildDataOptionsList_some, hb 255 (by decide)]
  · simp [WriteBuffer.pos, contribution_length]
  · have hp : (⟨255, contribution 0x9f4e 255⟩ : WriteBuffer).pos = 255 := by
      simp [WriteBuffer.pos, contribution_length]
    unfold gpoApdu
    rw [gpoApdu_header, hp]
    obtain ⟨m, hm, hs⟩ := foldl_putByte_keeps_data
      (List.take 255 (contribution 0x9f4e 255))
      ⟨255, [0x80, 0xA8, 0x00, 0x00, (255 + 2) % 256, 0x83, 255 % 256]⟩
    obtain ⟨m', hm', _⟩ := putByte_keeps_data
      ((List.take 255 (contribution 0x9f4e 255)).foldl WriteBuffer.putByte
        ⟨255, [0x80, 0xA8, 0x00, 0x00, (255 + 2) % 256, 0x83, 255 % 256]⟩) 0
    simp only [WriteBuffer.putBytes]
    rw [hm', hm]
    simp

/-! ## The end-to-end scenario -/

theorem selectApdu_visa (a : TLVNode) (h : a.getValue = aidVisa) :
    selectApdu a = selectVisaApdu := by
  simp [selectApdu, TLVNode.getValueLength, h, aidVisa, txBuffer, WriteBuffer.putBytes,
    WriteBuffer.putByte, WriteBuffer.pos, selectVisaApdu]

theorem aflCommands_one_record (fuel : Nat) (hfuel : 2 ≤ fuel) :
    aflCommands fuel [0x18, 0x01, 0x01, 0x00] = ([[0x00, 0xB2, 0x01, 0x1C, 0x00]], true) := by
  obtain ⟨f, rfl⟩ : ∃ f, fuel = f + 2 := ⟨fuel - 2, by omega⟩
  have hcmd : readRecordApdu 3 1 = [0x00, 0xB2, 0x01, 0x1C, 0x00] := by decide
  have hsfi : (0x18 : Nat) >>> 3 = 3 := by decide
  simp [aflCommands, recordCommands, hsfi, hcmd]

/-- C19: the end-to-end scenario. The discovery response holds two
application templates, one with priority 1 and AID `A0000000031010`, one with
an AID and no priority indicator, in either order; every response ends in
`90 00`; the GET PROCESSING OPTIONS response contains the AFL `18 01 01 00`.
Then the priority-1 AID is selected, the SELECT command is
`00 A4 04 00 07 A0 00 00 00 03 10 10 00`, and after the GET PROCESSING
OPTIONS command exactly one READ RECORD is sent, `00 B2 01 1C 00` (SFI 3,
record 1), and the cycle ends with the records read. -/
theorem C19_end_to_end (decode : Decoder) (card : Card) (fuel : Nat) (rx1 rx2 rx3 : List Nat)
    (t1 t2 a1 a2 afl : TLVNode) (sibs : List TLVNode) (out : WriteBuffer)
    (h1 : card [discoveryApdu] = some rx1) (hok1 : responseOk rx1 = true)
    (hts : (decode (payload rx1)).findAll 0x61 = [t1, t2] ∨
      (decode (payload rx1)).findAll 0x61 = [t2, t1])
    (ht1 : HasAidAndPriority t1 a1 1) (ha1 : a1.getValue = aidVisa)
    (ht2 : t2.findChild 0x4f = some a2) (ht2n : t2.findChild 0x87 = none)
    (h2 : card [discoveryApdu, selectVisaApdu] = some rx2) (hok2 : responseOk rx2 = true)
    (hbuild : buildDataOptionsList (((decode (payload rx2)).findTLV 0x9f38).map Prod.fst)
      dataBuffer = .returned true out)
    (h3 : card [discoveryApdu, selectVisaApdu, gpoApdu out] = some rx3)
    (hok3 : responseOk rx3 = true)
    (hafl : (decode (payload rx3)).findTLV 0x94 = some (afl, sibs))
    (haflv : afl.getValue = [0x18, 0x01, 0x01, 0x00]) (hfuel : 2 ≤ fuel) :
    (getPreferredAID decode card []).1 = .node a1 ∧
    (loop decode card true fuel).sent
      = [discoveryApdu, selectVisaApdu, gpoApdu out, [0x00, 0xB2, 0x01, 0x1C, 0x00]] ∧
    (loop decode card true fuel).outcome = .recordsRead := by
  obtain ⟨hc1, p1, hp1, hv1⟩ := ht1
  have hpref1 : appPref (t1.findChild 0x87) = some 1 := by
    rw [hp1, appPref_one_byte p1 1 hv1]
  have hsel : selectLoop ((decode (payload rx1)).findAll 0x61) ⟨99, none, none⟩
      = some ⟨1, some a1, t1.findChild 0x50⟩ := by
    have hpref2 : appPref (t2.findChild 0x87) = some 98 := by rw [ht2n]; rfl
    rcases hts with h | h
    · rw [h]
      simp [selectLoop, hc1, hpref1, ht2, hpref2]
    · rw [h]
      simp [selectLoop, hc1, hpref1, ht2, hpref2]
  have hg : getPreferredAID decode card [] = (.node a1, [discoveryApdu]) := by
    rw [getPreferredAID_of_response decode card rx1 h1 hok1, hsel]
  have hs : selectApplicationID decode card a1 [discoveryApdu]
      = (true, ((decode (payload rx2)).findTLV 0x9f38).map Prod.fst,
          [discoveryApdu, selectVisaApdu]) := by
    simp [selectApplicationID, selectApdu_visa a1 ha1, h2, hok2]
  have hp : getProcessingOptions decode card
      (((decode (payload rx2)).findTLV 0x9f38).map Prod.fst) [discoveryApdu, selectVisaApdu]
      = (.node afl, [discoveryApdu, selectVisaApdu, gpoApdu out]) := by
    simp [getProcessingOptions, hbuild, h3, hok3, hafl]
  have hloop : aflLoop decode card fuel (afl.getValueLength + 1) ⟨afl.getValue, 0⟩
      [discoveryApdu, selectVisaApdu, gpoApdu out]
      = ⟨[discoveryApdu, selectVisaApdu, gpoApdu out, [0x00, 0xB2, 0x01, 0x1C, 0x00]], true⟩ := by
    rw [TLVNode.getValueLength, aflLoop_start, runAfl_eq_commands, haflv,
      aflCommands_one_record fuel hfuel]
    rfl
  refine ⟨by rw [hg], ?_, ?_⟩
  · simp [loop, hg, hs, hp, hloop]
  · simp [loop, hg, hs, hp, hloop]

/-- Witness for C19: the scenario with the templates in the order priority 1,
no priority, a SELECT response without PDOL and a record answered with
`70 00 90 00`. -/
theorem C19_end_to_end_witness :
    (getPreferredAID scenarioDecoder scenarioCard []).1 = .node (.mk 0x4f aidVisa []) ∧
    (loop scenarioDecoder scenarioCard true 300).sent
      = [discoveryApdu, selectVisaApdu, gpoApdu dataBuffer, [0x00, 0xB2, 0x01, 0x1C, 0x00]] ∧
    (loop scenarioDecoder scenarioCard true 300).outcome = .recordsRead :=
  C19_end_to_end scenarioDecoder scenarioCard 300
    (twoTemplatesPayload ++ [0x90, 0x00]) (selectPayload ++ [0x90, 0x00])
    (gpoPayloadOneRecord ++ [0x90, 0x00])
    (templateWithPriority aidVisa 1) (templateWithoutPriority aidMastercard)
    (.mk 0x4f aidVisa []) (.mk 0x4f aidMastercard []) (.mk 0x94 [0x18, 0x01, 0x01, 0x00] []) []
    dataBuffer
    (by rfl) (by rfl) (Or.inl (by rfl)) ⟨by rfl, .mk 0x87 [1] [], by rfl, by rfl⟩ (by rfl)
    (by rfl) (by rfl) (by rfl) (by rfl) (by rfl) (by rfl) (by rfl) (by rfl) (by rfl)
    (by decide)

/-! ## The commands of `readAppRecords` and the table search -/

theorem readRecordApdu_bytes (sfi record : Nat) :
    readRecordApdu sfi record = [0x00, 0xB2, record, (sfi <<< 3 ||| 4) % 256, 0x00] := by
  simp [readRecordApdu, txBuffer, WriteBuffer.putBytes, WriteBuffer.putByte, WriteBuffer.pos]

theorem p2_of_sfi (sfi : Nat) (h : sfi ≤ 31) :
    (sfi <<< 3 ||| 4) % 256 = sfi <<< 3 ||| 4 ∧ (sfi <<< 3 ||| 4) >>> 3 = sfi ∧
      (sfi <<< 3 ||| 4) &&& 7 = 4 := by
  interval_cases sfi <;> decide

/-- With `end` below 255, the record loop sends one command per record number
from `record` to `end`, in increasing order, and ends. -/
theorem recordCommands_range (sfi end_ : Nat) (hend : end_ ≤ 254) (k : Nat) :
    ∀ (fuel record : Nat), record + k = end_ + 1 → k < fuel →
      recordCommands sfi end_ fuel record
        = ((List.range' record k).map (readRecordApdu sfi), true) := by
  induction k with
  | zero =>
    intro fuel record hk hf
    obtain ⟨f, rfl⟩ : ∃ f, fuel = f + 1 := ⟨fuel - 1, by omega⟩
    have hgt : ¬ record ≤ end_ := by omega
    simp [recordCommands, hgt]
  | succ k ih =>
    intro fuel record hk hf
    obtain ⟨f, rfl⟩ : ∃ f, fuel = f + 1 := ⟨fuel - 1, by omega⟩
    have hle : record ≤ end_ := by omega
    have hmod : (record + 1) % 256 = record + 1 := Nat.mod_eq_of_lt (by omega)
    simp only [recordCommands, if_pos hle, hmod, ih f (record + 1) (by omega) (by omega)]
    simp [List.range'_succ]

/-- C21: at the entry SFI 1, first 1, last 255 `readAppRecords` does not send
`last - first + 1 = 255` commands and stop: with a budget of 300 iterations it
has sent 300 READ RECORD commands and is still in its loop. For every entry
with SFI at most 31 and first <= last <= 254 the claim holds: exactly
`last - first + 1` commands are sent, one per record number from first to
last in increasing order, the command for record `r` being `00 B2 r P2 00`
with `P2 = (s << 3) | 4`, `P2 >> 3 = s`, `P2 & 7 = 4`, and the loop ends. -/
theorem C21_read_record_commands (decode : Decoder) (card : Card) (sent : List (List Nat)) :
    (readAppRecords decode card 300 1 1 255 sent).finished = false ∧
    (readAppRecords decode card 300 1 1 255 sent).sent.length = sent.length + 300 ∧
    (∀ (fuel sfi first last : Nat), sfi ≤ 31 → first ≤ last → last ≤ 254 →
      last - first + 1 < fuel →
        readAppRecords decode card fuel sfi first last sent
          = ⟨sent ++ (List.range' first (last - first + 1)).map
              (fun r => [0x00, 0xB2, r, sfi <<< 3 ||| 4, 0x00]), true⟩ ∧
        ((List.range' first (last - first + 1)).map
          (fun r => [0x00, 0xB2, r, sfi <<< 3 ||| 4, 0x00])).length = last - first + 1 ∧
        (sfi <<< 3 ||| 4) >>> 3 = sfi ∧ (sfi <<< 3 ||| 4) &&& 7 = 4) := by
  refine ⟨(readAppRecordsLoop_last_255 decode card 1 300 1 sent (by decide)).1,
    (readAppRecordsLoop_last_255 decode card 1 300 1 sent (by decide)).2, ?_⟩
  intro fuel sfi first last hs hfl hl hfuel
  obtain ⟨hp1, hp2, hp3⟩ := p2_of_sfi sfi hs
  refine ⟨?_, by simp, hp2, hp3⟩
  have hfun : readRecordApdu sfi = fun r => [0x00, 0xB2, r, sfi <<< 3 ||| 4, 0x00] := by
    funext r
    rw [readRecordApdu_bytes, hp1]
  rw [readAppRecords, readAppRecordsLoop_eq_commands,
    recordCommands_range sfi last hl (last - first + 1) fuel first (by omega) hfuel, hfun]

/-- C22: for the tag 9F02, which the table does not hold, `getDataOption`
does not stop after the eight entries: its loop is bounded by
`sizeof(data_options_list)`, 96, and it reads `data_options_list[8]`, past
the array, instead of returning `NULL`; the same happens for every tag that
is not in the table. For a tag of the table it returns the first entry with
that tag, reading inside the table only. -/
theorem C22_table_search_overruns :
    data_options_list.length = 8 ∧
    sizeof_data_options_list = 96 ∧
    0x9f02 ∉ dictionaryTags ∧
    getDataOption 0x9f02 = .overrun 8 ∧
    (∀ tag : Nat, tag ∉ dictionaryTags → getDataOption tag = .overrun 8) ∧
    (∀ tag : Nat, tag ∈ dictionaryTags →
      ∃ e, data_options_list.find? (fun o => o.tag == tag) = some e ∧
        getDataOption tag = .found e) := by
  refine ⟨by decide, by decide, by decide, by decide, getDataOption_unknown, ?_⟩
  intro tag h
  refine ⟨⟨tag, storedValue tag, (storedValue tag).length⟩, ?_, getDataOption_dictionary tag h⟩
  simp only [dictionaryTags, data_options_list, List.map_cons, List.map_nil, List.mem_cons,
    List.mem_singleton, List.not_mem_nil, or_false] at h
  rcases h with h | h | h | h | h | h | h | h <;> subst h <;> decide

/-! ## A pair that reaches a buffer with too little room -/

theorem foldl_putByte_until_full (l1 l2 : List Nat) (wb : WriteBuffer)
    (h : wb.pos + l1.length = wb.buffer_size) :
    (l1 ++ l2).foldl WriteBuffer.putByte wb = ⟨wb.buffer_size, wb.data ++ l1⟩ := by
  rw [List.foldl_append, foldl_putByte_room l1 wb (by omega)]
  exact foldl_putByte_full l2 _ (by simp only [WriteBuffer.pos, List.length_append] at *; omega)

theorem padZeros_until_full (a b : Nat) :
    ∀ wb : WriteBuffer, wb.pos + a = wb.buffer_size →
      padZeros (a + b) wb = ⟨wb.buffer_size, wb.data ++ List.replicate a 0⟩ := by
  induction a with
  | zero =>
    intro wb h
    rw [Nat.zero_add, padZeros_full b wb (by omega)]
    simp
  | succ a ih =>
    intro wb h
    have e : a + 1 + b = (a + b) + 1 := by omega
    rw [e, padZeros, putByte_room wb 0 (by omega),
      ih _ (by simp only [WriteBuffer.pos, List.length_append, List.length_singleton] at *; omega)]
    simp [List.replicate_succ]

/-- C3 fails as stated: in the request `9F35 FA 9F4E 0A` both tags are in the
dictionary and the merchant name (32 bytes stored) is requested with length
10; the first pair fills 250 of the 255 bytes of the data buffer and the
segment written for the second pair is the first 5 bytes of the value, not
the first 10. -/
theorem C3_counterexample :
    0x9f4e ∈ dictionaryTags ∧ 10 < (storedValue 0x9f4e).length ∧
    buildDataOptionsList (some (pdolNode (encodeDol [(0x9f35, 250), (0x9f4e, 10)]))) dataBuffer
      = .returned true ⟨255, contribution 0x9f35 250 ++ (storedValue 0x9f4e).take 5⟩ ∧
    (contribution 0x9f35 250).length = 250 ∧
    (storedValue 0x9f4e).take 5 ≠ (storedValue 0x9f4e).take 10 := by
  refine ⟨by decide, by decide, ?_, contribution_length _ _, by decide⟩
  rw [buildDataOptionsList_some]
  have h1 := runDol_dictionary_pair 0x9f35 250 (encodeDol [(0x9f4e, 10)]) dataBuffer
    (by decide) (by decide) (by decide)
  simp only [dataBuffer, List.nil_append] at h1
  have henc : encodeDol [(0x9f35, 250), (0x9f4e, 10)]
      = encodeDol [(0x9f35, 250)] ++ encodeDol [(0x9f4e, 10)] := by simp [encodeDol]
  simp only [dataBuffer]
  rw [henc, h1]
  have hget : getDataOption 0x9f4e = .found ⟨0x9f4e, dolValMNL, 32⟩ := by decide
  have hsplit : List.take (min 32 10) dolValMNL
      = List.take 5 dolValMNL ++ [0x32, 0x34, 0x30, 0x38, 0x00] := by decide
  have hput : (⟨255, contribution 0x9f35 250⟩ : WriteBuffer).putBytes dolValMNL (min 32 10)
      = ⟨255, contribution 0x9f35 250 ++ dolValMNL.take 5⟩ := by
    rw [WriteBuffer.putBytes, hsplit]
    exact foldl_putByte_until_full _ _ _ (by
      simp [WriteBuffer.pos, contribution_length, dolValMNL])
  have hsv : storedValue 0x9f4e = dolValMNL := by decide
  have htag : (0x9f4e : Nat) / 256 * 256 + 0x9f4e % 256 = 0x9f4e := by decide
  simp only [encodeDol, runDol]
  rw [if_pos (by decide), htag]
  simp only [emitPair, hget]
  rw [hput, if_pos (by decide), if_neg (by decide), hsv]

/-- C4 fails as stated: in the request `9F66 04 9F35 FF` both tags are in the
dictionary and the terminal type (1 byte stored) is requested with length
255; the first pair takes 4 of the 255 bytes of the data buffer and the
segment written for the second pair is the value followed by 250 zero bytes,
251 bytes in all, not the value followed by 254 zero bytes. -/
theorem C4_counterexample :
    0x9f35 ∈ dictionaryTags ∧ (storedValue 0x9f35).length < 255 ∧
    buildDataOptionsList (some (pdolNode (encodeDol [(0x9f66, 4), (0x9f35, 255)]))) dataBuffer
      = .returned true
          ⟨255, contribution 0x9f66 4 ++ (storedValue 0x9f35 ++ List.replicate 250 0)⟩ ∧
    (contribution 0x9f66 4).length = 4 ∧
    storedValue 0x9f35 ++ List.replicate 250 0
      ≠ storedValue 0x9f35 ++ List.replicate (255 - (storedValue 0x9f35).length) 0 := by
  refine ⟨by decide, by decide, ?_, contribution_length _ _, ?_⟩
  · rw [buildDataOptionsList_some]
    have h1 := runDol_dictionary_pair 0x9f66 4 (encodeDol [(0x9f35, 255)]) dataBuffer
      (by decide) (by decide) (by decide)
    simp only [dataBuffer, List.nil_append] at h1
    have henc : encodeDol [(0x9f66, 4), (0x9f35, 255)]
        = encodeDol [(0x9f66, 4)] ++ encodeDol [(0x9f35, 255)] := by simp [encodeDol]
    simp only [dataBuffer]
    rw [henc, h1]
    have hget : getDataOption 0x9f35 = .found ⟨0x9f35, dolValTT, 1⟩ := by decide
    have hput : (⟨255, contribution 0x9f66 4⟩ : WriteBuffer).putBytes dolValTT (min 1 255)
        = ⟨255, contribution 0x9f66 4 ++ dolValTT⟩ := by
      decide
    have hpad : padZeros ((255 + 256 - 1) % 256) ⟨255, contribution 0x9f66 4 ++ dolValTT⟩
        = ⟨255, contribution 0x9f66 4 ++ dolValTT ++ List.replicate 250 0⟩ := by
      have e : (255 + 256 - 1) % 256 = 250 + 4 := by decide
      rw [e]
      exact padZeros_until_full 250 4 _ (by
        simp [WriteBuffer.pos, contribution_length, dolValTT])
    have hsv : storedValue 0x9f35 = dolValTT := by decide
    have htag : (0x9f35 : Nat) / 256 * 256 + 0x9f35 % 256 = 0x9f35 := by decide
    simp only [encodeDol, runDol]
    rw [if_pos (by decide), htag]
    simp only [emitPair, hget]
    rw [hput, if_pos (by decide), if_pos (by decide), hpad, hsv, List.append_assoc]
  · intro h
    have hl : (storedValue 0x9f35).length = 1 := by decide
    have := congrArg List.length h
    simp only [List.length_append, List.length_replicate, hl] at this
    omega

/-! ## What a failed resolution leaves in the buffer -/

theorem padZeros_keeps_data (n : Nat) :
    ∀ wb : WriteBuffer, ∃ m, (padZeros n wb).data = wb.data ++ m ∧
      (padZeros n wb).buffer_size = wb.buffer_size := by
  induction n with
  | zero => intro wb; exact ⟨[], by simp [padZeros], rfl⟩
  | succ n ih =>
    intro wb
    obtain ⟨m1, h1, hs1⟩ := putByte_keeps_data wb 0
    obtain ⟨m2, h2, hs2⟩ := ih (wb.putByte 0)
    refine ⟨m1 ++ m2, ?_, ?_⟩
    · rw [padZeros, h2, h1, List.append_assoc]
    · rw [padZeros, hs2, hs1]

/-- When the loop body ends with a return, the continuation was reached with a
buffer that extends the one the body started from. -/
theorem emitPair_returned (tag len : Nat) (wb : WriteBuffer) (k : WriteBuffer → BuildResult)
    (b : Bool) (out : WriteBuffer) (h : emitPair tag len wb k = .returned b out) :
    ∃ w, k w = .returned b out ∧ (∃ m, w.data = wb.data ++ m) ∧
      w.buffer_size = wb.buffer_size := by
  unfold emitPair at h
  rcases hg : getDataOption tag with o | _ | i
  · rw [hg] at h
    simp only at h
    obtain ⟨m1, h1, hs1⟩ := foldl_putByte_keeps_data
      (List.take (min o.value_length len) o.value) wb
    have hput : ∃ m, (wb.putBytes o.value (min o.value_length len)).data = wb.data ++ m ∧
        (wb.putBytes o.value (min o.value_length len)).buffer_size = wb.buffer_size :=
      ⟨m1, h1, hs1⟩
    obtain ⟨m1, h1, hs1⟩ := hput
    obtain ⟨m2, h2, hs2⟩ := padZeros_keeps_data ((len + 256 - o.value_length) % 256)
      (wb.putBytes o.value (min o.value_length len))
    split at h
    · split at h
      · exact ⟨_, h, ⟨m1 ++ m2, by rw [h2, h1, List.append_assoc]⟩, by rw [hs2, hs1]⟩
      · exact ⟨_, h, ⟨m1, h1⟩, hs1⟩
    · exact ⟨_, h, ⟨m1, h1⟩, hs1⟩
  · rw [hg] at h
    obtain ⟨m, h1, hs1⟩ := padZeros_keeps_data len wb
    exact ⟨_, h, ⟨m, h1⟩, hs1⟩
  · rw [hg] at h
    exact BuildResult.noConfusion h

/-- Whatever the loop returns, the buffer it leaves extends the buffer it was
given: nothing written is taken back. -/
theorem runDol_keeps_data :
    ∀ (req : List Nat) (wb : WriteBuffer) (b : Bool) (out : WriteBuffer),
      runDol req wb = .returned b out →
        (∃ m, out.data = wb.data ++ m) ∧ out.buffer_size = wb.buffer_size
  | [], wb, b, out, h => by
    simp only [runDol, BuildResult.returned.injEq] at h
    obtain ⟨_, rfl⟩ := h
    exact ⟨⟨[], by simp⟩, rfl⟩
  | [_], wb, b, out, h => by
    simp only [runDol, BuildResult.returned.injEq] at h
    obtain ⟨_, rfl⟩ := h
    exact ⟨⟨[], by simp⟩, rfl⟩
  | [b0, b1], wb, b, out, h => by
    by_cases hb : b0 % 32 = 31
    · simp only [runDol, hb, if_true, BuildResult.returned.injEq] at h
      obtain ⟨_, rfl⟩ := h
      exact ⟨⟨[], by simp⟩, rfl⟩
    · simp only [runDol, hb, if_false] at h
      obtain ⟨w, hw, ⟨m, hm⟩, hs⟩ := emitPair_returned _ _ _ _ _ _ h
      simp only [runDol, BuildResult.returned.injEq] at hw
      obtain ⟨_, rfl⟩ := hw
      exact ⟨⟨m, hm⟩, hs⟩
  | b0 :: b1 :: b2 :: rest, wb, b, out, h => by
    by_cases hb : b0 % 32 = 31
    · simp only [runDol, hb, if_true] at h
      obtain ⟨w, hw, ⟨m, hm⟩, hs⟩ := emitPair_returned _ _ _ _ _ _ h
      obtain ⟨⟨m2, hm2⟩, hs2⟩ := runDol_keeps_data rest w b out hw
      exact ⟨⟨m ++ m2, by rw [hm2, hm, List.append_assoc]⟩, by rw [hs2, hs]⟩
    · simp only [runDol, hb, if_false] at h
      obtain ⟨w, hw, ⟨m, hm⟩, hs⟩ := emitPair_returned _ _ _ _ _ _ h
      obtain ⟨⟨m2, hm2⟩, hs2⟩ := runDol_keeps_data (b2 :: rest) w b out hw
      exact ⟨⟨m ++ m2, by rw [hm2, hm, List.append_assoc]⟩, by rw [hs2, hs]⟩

/-- C17 (as amended): when `buildDataOptionsList` fails on a malformed
request, made of complete pairs with dictionary tags followed by a pair that
cannot be parsed, it returns false and takes nothing back: the output buffer
holds what it held before the call followed by what was written for the
complete pairs, which is their contributions in order when these fit in the
free space of the buffer; contents and write position are those before the
call only when nothing was written. The caller does not use the buffer:
`getProcessingOptions` returns `NULL` and sends no command. -/
theorem C17_failure_keeps_earlier_output (ps : List (Nat × Nat)) (tail : List Nat)
    (wb : WriteBuffer) (hall : ∀ p ∈ ps, p.1 ∈ dictionaryTags ∧ p.2 < 256)
    (hcut : cutPair tail = true) :
    (∃ (out : WriteBuffer) (written : List Nat),
      buildDataOptionsList (some (pdolNode (encodeDol ps ++ tail))) wb = .returned false out ∧
      out.buffer_size = wb.buffer_size ∧
      out.data = wb.data ++ written ∧
      (wb.pos + requestedTotal ps ≤ wb.buffer_size → written = resolved ps)) ∧
    (∀ (decode : Decoder) (card : Card) (sent : List (List Nat)),
      getProcessingOptions decode card (some (pdolNode (encodeDol ps ++ tail))) sent
        = (.null, sent)) := by
  have key : ∀ w : WriteBuffer, ∃ (out : WriteBuffer) (written : List Nat),
      buildDataOptionsList (some (pdolNode (encodeDol ps ++ tail))) w = .returned false out ∧
      out.buffer_size = w.buffer_size ∧
      out.data = w.data ++ written ∧
      (w.pos + requestedTotal ps ≤ w.buffer_size → written = resolved ps) := by
    intro w
    obtain ⟨out, hout⟩ := runDol_dictionary_true ps w hall
    obtain ⟨⟨m, hm⟩, hs⟩ := runDol_keeps_data (encodeDol ps) w true out hout
    refine ⟨out, m, ?_, hs, hm, ?_⟩
    · rw [buildDataOptionsList_some, runDol_append tail (encodeDol ps) w
        (completePairs_encodeDol ps hall), hout]
      simp only [BuildResult.andThen]
      exact runDol_cutPair tail out hcut
    · intro hroom
      have h2 := runDol_dictionary ps w hall hroom
      rw [hout] at h2
      simp only [BuildResult.returned.injEq, true_and] at h2
      rw [h2] at hm
      simp only at hm
      exact (List.append_cancel_left hm).symm
  refine ⟨key wb, ?_⟩
  intro decode card sent
  obtain ⟨out, _, h, _⟩ := key dataBuffer
  simp [getProcessingOptions, h]

/-- Witness for C17: the request `9F66 04 9F`, a complete pair and then the
first byte of a tag, into the empty data buffer. -/
theorem C17_failure_keeps_earlier_output_witness :
    (∃ (out : WriteBuffer) (written : List Nat),
      buildDataOptionsList (some (pdolNode (encodeDol [(0x9f66, 4)] ++ [0x9F]))) dataBuffer
        = .returned false out ∧
      out.buffer_size = dataBuffer.buffer_size ∧
      out.data = dataBuffer.data ++ written ∧
      (dataBuffer.pos + requestedTotal [(0x9f66, 4)] ≤ dataBuffer.buffer_size →
        written = resolved [(0x9f66, 4)])) ∧
    (∀ (decode : Decoder) (card : Card) (sent : List (List Nat)),
      getProcessingOptions decode card
        (some (pdolNode (encodeDol [(0x9f66, 4)] ++ [0x9F]))) sent = (.null, sent)) :=
  C17_failure_keeps_earlier_output [(0x9f66, 4)] [0x9F] dataBuffer (by decide) (by decide)

end Emv
